import Mathlib

/-!
# seax: a shallow embedding of the command-line search client

The repository has two Go files: `client/client.go` (type `Client`, its method `Search`)
and `main.go` (`main`, `run`, `parseFlags`, `readQuery`, `outputResults`, `outputJSON`,
`outputText`).  Both are translated below, function by function, under their Go names.

The program does its work by calling the Go standard library (`net/url`, `strings`,
`unicode/utf8`, `encoding/json`, `flag`, `bufio`, `fmt`).  The library routines whose
results the properties depend on are translated as well, from the library sources, under
their Go names.  What the program cannot determine (the network, the text of library
diagnostics, URL parsing inside `http.NewRequest`) is collected in the structure `Runtime`.

Go strings are byte sequences (`GoString`); errors are represented by their `Error()` text.
-/

namespace Seax

/-! ## Bytes and strings -/

abbrev Byte := Fin 256

/-- A Go `string`: an immutable sequence of bytes, not necessarily valid UTF-8. -/
abbrev GoString := List Byte

/-- A Go `rune`.  Only non-negative code points occur in this program. -/
abbrev Rune := Nat

/-- A Go string literal made of ASCII characters. -/
def str (s : String) : GoString := s.toList.map (fun c => Fin.ofNat c.toNat)

/-- The decimal loop of `fmtInteger` of package fmt, writing backwards into `buf`:
`for u >= 10 { next := u / 10; buf[i] = byte('0' + u - next*10); u = next }`, then the
last digit `'0' + u`. The fuel bounds the number of passes. -/
def fmtDecimal : Nat → Nat → GoString → GoString
  | 0, u, buf => Fin.ofNat (48 + u) :: buf
  | fuel + 1, u, buf =>
    if 10 ≤ u then fmtDecimal fuel (u / 10) (Fin.ofNat (48 + (u - u / 10 * 10)) :: buf)
    else Fin.ofNat (48 + u) :: buf

/-- The decimal digits that `%d` prints for a non-negative int. -/
def natDigits (n : Nat) : GoString := fmtDecimal n n []

/-- The verb `%d` of package fmt applied to an int: a minus sign for a negative value, then
the digits of the absolute value. -/
def Itoa (n : Int) : GoString :=
  if n < 0 then (45 : Byte) :: natDigits n.natAbs else natDigits n.toNat

/-- The number that a string of decimal digits denotes (Horner's rule). Not part of the
program: the meaning of "the decimal status code" in the properties below. -/
def decimalValue (s : GoString) : Nat := s.foldl (fun acc b => 10 * acc + (b.val - 48)) 0

/-- Go's `<` on strings: bytewise lexicographic order. -/
def strLt : GoString → GoString → Bool
  | [], [] => false
  | [], _ :: _ => true
  | _ :: _, [] => false
  | a :: as, b :: bs => if a.val < b.val then true else if b.val < a.val then false else strLt as bs

/-- Go's `<=` on strings. -/
def strLe (a b : GoString) : Bool := !strLt b a

/-- Cut of package strings with a one-byte separator: the text before the first
separator, the text after it, and whether the separator was found. -/
def Cut (s : GoString) (sep : Byte) : GoString × GoString × Bool :=
  match s with
  | [] => ([], [], false)
  | c :: cs =>
    if c = sep then ([], cs, true)
    else
      let r := Cut cs sep
      (c :: r.1, r.2.1, r.2.2)

/-! ## unicode/utf8 -/

def RuneError : Rune := 0xFFFD

/-- DecodeRuneInString of package utf8: the first rune of `s` and its width in bytes.
The library's lookup tables `first` and `acceptRanges` are written out as comparisons;
masks and shifts are written as `%` and `*`. An invalid or truncated
encoding yields `(RuneError, 1)`, the empty string `(RuneError, 0)`. -/
def DecodeRuneInString (s : GoString) : Rune × Nat :=
  match s with
  | [] => (RuneError, 0)
  | s0 :: t =>
    if s0.val < 0x80 then (s0.val, 1)
    else if s0.val < 0xC2 ∨ 0xF4 < s0.val then (RuneError, 1)
    else
      let sz := if s0.val < 0xE0 then 2 else if s0.val < 0xF0 then 3 else 4
      let lo := if s0.val = 0xE0 then 0xA0 else if s0.val = 0xF0 then 0x90 else 0x80
      let hi := if s0.val = 0xED then 0x9F else if s0.val = 0xF4 then 0x8F else 0xBF
      if s.length < sz then (RuneError, 1)
      else
        match t with
        | [] => (RuneError, 1)
        | s1 :: t1 =>
          if s1.val < lo ∨ hi < s1.val then (RuneError, 1)
          else if sz ≤ 2 then ((s0.val % 32) * 64 + s1.val % 64, 2)
          else
            match t1 with
            | [] => (RuneError, 1)
            | s2 :: t2 =>
              if s2.val < 0x80 ∨ 0xBF < s2.val then (RuneError, 1)
              else if sz ≤ 3 then
                ((s0.val % 16) * 4096 + (s1.val % 64) * 64 + s2.val % 64, 3)
              else
                match t2 with
                | [] => (RuneError, 1)
                | s3 :: _ =>
                  if s3.val < 0x80 ∨ 0xBF < s3.val then (RuneError, 1)
                  else
                    ((s0.val % 8) * 262144 + (s1.val % 64) * 4096 + (s2.val % 64) * 64
                      + s3.val % 64, 4)

/-- AppendRune of package utf8 (to an empty buffer): the UTF-8 encoding of a rune.
Surrogates and values above U+10FFFF are encoded as U+FFFD. -/
def EncodeRune (r : Rune) : GoString :=
  if r < 0x80 then [Fin.ofNat r]
  else if r ≤ 0x7FF then [Fin.ofNat (0xC0 + r / 64), Fin.ofNat (0x80 + r % 64)]
  else if 0x10FFFF < r ∨ (0xD800 ≤ r ∧ r ≤ 0xDFFF) then [0xEF, 0xBF, 0xBD]
  else if r ≤ 0xFFFF then
    [Fin.ofNat (0xE0 + r / 4096), Fin.ofNat (0x80 + r / 64 % 64), Fin.ofNat (0x80 + r % 64)]
  else
    [Fin.ofNat (0xF0 + r / 262144), Fin.ofNat (0x80 + r / 4096 % 64),
      Fin.ofNat (0x80 + r / 64 % 64), Fin.ofNat (0x80 + r % 64)]

/-- RuneStart of package utf8: the byte is not a continuation byte (`b&0xC0 != 0x80`). -/
def RuneStart (b : Byte) : Bool := decide (b.val / 64 ≠ 2)

/-- The backward scan of DecodeLastRuneInString: starting below the last byte, step back
over at most three bytes (never below `lim = max(0, end-4)`) until a byte that starts a
rune; a start that would fall below zero is set to zero. -/
def lastRuneStart (s : GoString) : Nat :=
  let e := s.length
  let lim := e - 4
  if 2 ≤ e ∧ RuneStart (s.getD (e - 2) 0) then e - 2
  else if 3 ≤ e ∧ RuneStart (s.getD (e - 3) 0) then e - 3
  else if 4 ≤ e ∧ RuneStart (s.getD (e - 4) 0) then e - 4
  else lim - 1

/-- DecodeLastRuneInString of package utf8: the last rune of `s` and its width. -/
def DecodeLastRuneInString (s : GoString) : Rune × Nat :=
  let e := s.length
  if e = 0 then (RuneError, 0)
  else
    let b := s.getD (e - 1) 0
    if b.val < 0x80 then (b.val, 1)
    else
      let start := lastRuneStart s
      let d := DecodeRuneInString (s.drop start)
      if start + d.2 ≠ e then (RuneError, 1) else d

/-- ValidString of package utf8. The fuel bounds the number of runes. -/
def validUTF8Aux : Nat → GoString → Bool
  | 0, s => s.isEmpty
  | fuel + 1, s =>
    match s with
    | [] => true
    | _ :: _ =>
      let d := DecodeRuneInString s
      if d.1 = RuneError ∧ d.2 = 1 then false else validUTF8Aux fuel (s.drop d.2)

def ValidString (s : GoString) : Bool := validUTF8Aux s.length s

/-! ## unicode, strings -/

/-- IsSpace of package unicode: the Latin-1 cases, then the table `White_Space`. -/
def IsSpace (r : Rune) : Bool :=
  if r ≤ 0xFF then
    decide (r = 9 ∨ r = 10 ∨ r = 11 ∨ r = 12 ∨ r = 13 ∨ r = 32 ∨ r = 0x85 ∨ r = 0xA0)
  else
    decide (r = 0x1680 ∨ (0x2000 ≤ r ∧ r ≤ 0x200A) ∨ r = 0x2028 ∨ r = 0x2029 ∨ r = 0x202F
      ∨ r = 0x205F ∨ r = 0x3000)

/-- The table `asciiSpace` of package strings. -/
def asciiSpace (c : Byte) : Bool :=
  decide (c = 9 ∨ c = 10 ∨ c = 11 ∨ c = 12 ∨ c = 13 ∨ c = 32)

/-- The loop `for i, r := range s` of `indexFunc(s, f, truth)`: `i` is the byte offset of
`s` in the whole string. Returns the offset of the first rune with `f r = truth`, or
`none` (Go: -1). -/
def indexFuncAux (f : Rune → Bool) (truth : Bool) : Nat → Nat → GoString → Option Nat
  | 0, _, _ => none
  | fuel + 1, i, s =>
    match s with
    | [] => none
    | _ :: _ =>
      let d := DecodeRuneInString s
      if f d.1 = truth then some i else indexFuncAux f truth fuel (i + d.2) (s.drop d.2)

def indexFunc (s : GoString) (f : Rune → Bool) (truth : Bool) : Option Nat :=
  indexFuncAux f truth s.length 0 s

/-- The loop of `lastIndexFunc(s, f, truth)`: `for i := len(s); i > 0; ...`. -/
def lastIndexFuncAux (f : Rune → Bool) (truth : Bool) (s : GoString) : Nat → Nat → Option Nat
  | 0, _ => none
  | fuel + 1, i =>
    if i = 0 then none
    else
      let d := DecodeLastRuneInString (s.take i)
      let j := i - d.2
      if f d.1 = truth then some j else lastIndexFuncAux f truth s fuel j

def lastIndexFunc (s : GoString) (f : Rune → Bool) (truth : Bool) : Option Nat :=
  lastIndexFuncAux f truth s s.length s.length

def TrimLeftFunc (s : GoString) (f : Rune → Bool) : GoString :=
  match indexFunc s f false with
  | none => []
  | some i => s.drop i

def TrimRightFunc (s : GoString) (f : Rune → Bool) : GoString :=
  match lastIndexFunc s f false with
  | none => []
  | some i =>
    if 0x80 ≤ (s.getD i 0).val then s.take (i + (DecodeRuneInString (s.drop i)).2)
    else s.take (i + 1)

def TrimFunc (s : GoString) (f : Rune → Bool) : GoString :=
  TrimRightFunc (TrimLeftFunc s f) f

/-- First loop of TrimSpace: advance `start` over ASCII spaces. The flag reports that a
byte `>= 0x80` stopped the loop. -/
def trimSpaceStart : GoString → Nat → Nat × Bool
  | [], i => (i, false)
  | c :: cs, i =>
    if 0x80 ≤ c.val then (i, true)
    else if asciiSpace c then trimSpaceStart cs (i + 1)
    else (i, false)

/-- Second loop of TrimSpace, over the bytes of `s[start:]` from the last one down:
lower `stop` over ASCII spaces. The flag reports that a byte `>= 0x80` stopped the loop. -/
def trimSpaceStop : GoString → Nat → Nat × Bool
  | [], stop => (stop, false)
  | c :: cs, stop =>
    if 0x80 ≤ c.val then (stop, true)
    else if asciiSpace c then trimSpaceStop cs (stop - 1)
    else (stop, false)

/-- TrimSpace of package strings. -/
def TrimSpace (s : GoString) : GoString :=
  let a := trimSpaceStart s 0
  if a.2 then TrimFunc (s.drop a.1) IsSpace
  else
    let b := trimSpaceStop (s.drop a.1).reverse s.length
    if b.2 then TrimRightFunc ((s.take b.1).drop a.1) IsSpace
    else (s.take b.1).drop a.1

/-! ## net/url -/

/-- The table `upperhex` of package url. -/
def upperhex : GoString := str "0123456789ABCDEF"

/-- The function `shouldEscape(c, encodeQueryComponent)` of package url: everything but
ASCII letters, digits and `-`, `_`, `.`, `~` is escaped. -/
def shouldEscape (c : Byte) : Bool :=
  if (97 ≤ c.val ∧ c.val ≤ 122) ∨ (65 ≤ c.val ∧ c.val ≤ 90) ∨ (48 ≤ c.val ∧ c.val ≤ 57) then
    false
  else if c = 45 ∨ c = 95 ∨ c = 46 ∨ c = 126 then false
  else true

/-- One step of the output loop of `escape(s, encodeQueryComponent)`: a space becomes `+`,
a byte to escape becomes `%XX`, any other byte is copied. -/
def escapeByte (c : Byte) : GoString :=
  if c = 32 then [43]
  else if shouldEscape c then [37, upperhex.getD (c.val / 16) 0, upperhex.getD (c.val % 16) 0]
  else [c]

/-- QueryEscape of package url. (The library returns `s` itself when nothing needs
escaping and has a separate loop when only spaces do; both agree with the general loop.) -/
def QueryEscape (s : GoString) : GoString := s.flatMap escapeByte

def ishex (c : Byte) : Bool :=
  decide ((48 ≤ c.val ∧ c.val ≤ 57) ∨ (97 ≤ c.val ∧ c.val ≤ 102) ∨ (65 ≤ c.val ∧ c.val ≤ 70))

def unhex (c : Byte) : Byte :=
  if 48 ≤ c.val ∧ c.val ≤ 57 then c - 48
  else if 97 ≤ c.val ∧ c.val ≤ 102 then c - 97 + 10
  else if 65 ≤ c.val ∧ c.val ≤ 70 then c - 65 + 10
  else 0

/-- Errors of ParseQuery. -/
inductive QueryError where
  | escape (s : GoString)
  | semicolon
  deriving DecidableEq, Repr

/-- QueryUnescape of package url: `%XX` becomes the byte XX, `+` becomes a space; a `%`
not followed by two hex digits is an EscapeError carrying at most three bytes. -/
def QueryUnescape : GoString → Except QueryError GoString
  | [] => .ok []
  | c :: rest =>
    if c = 37 then
      match rest with
      | a :: b :: rest2 =>
        if ishex a ∧ ishex b then
          match QueryUnescape rest2 with
          | .ok t => .ok ((unhex a * 16 + unhex b) :: t)
          | .error e => .error e
        else .error (.escape [c, a, b])
      | _ => .error (.escape (c :: rest))
    else
      match QueryUnescape rest with
      | .ok t => .ok ((if c = 43 then 32 else c) :: t)
      | .error e => .error e

/-- The type `Values` of package url, a `map[string][]string`: a list of keys, each
occurring once, with their values. -/
abbrev Values := List (GoString × List GoString)

/-- The map lookup `v[key]`. -/
def Values.get (v : Values) (key : GoString) : List GoString :=
  match v.find? (fun kv => kv.1 = key) with
  | some kv => kv.2
  | none => []

/-- The method Add of Values: `v[key] = append(v[key], value)`. -/
def Values.Add : Values → GoString → GoString → Values
  | [], key, value => [(key, [value])]
  | (k, vs) :: rest, key, value =>
    if k = key then (k, vs ++ [value]) :: rest else (k, vs) :: Values.Add rest key value

/-- The method Encode of Values: the keys sorted, then `key=value` pairs joined by `&`,
key and value query-escaped. -/
def Values.Encode (v : Values) : GoString :=
  let keys := (v.map Prod.fst).insertionSort (fun a b => strLe a b = true)
  keys.foldl
    (fun buf k =>
      (Values.get v k).foldl
        (fun buf val =>
          (if 0 < buf.length then buf ++ [38] else buf) ++ QueryEscape k ++ [61]
            ++ QueryEscape val)
        buf)
    []

/-- The loop of `parseQuery(m, query)`: `m` the map so far, `err` the error so far. -/
def parseQueryLoop : Nat → Values → Option QueryError → GoString → Values × Option QueryError
  | 0, m, err, _ => (m, err)
  | fuel + 1, m, err, query =>
    if query = [] then (m, err)
    else
      let c := Cut query 38
      if 59 ∈ c.1 then parseQueryLoop fuel m (some .semicolon) c.2.1
      else if c.1 = [] then parseQueryLoop fuel m err c.2.1
      else
        let kv := Cut c.1 61
        match QueryUnescape kv.1 with
        | .error e1 => parseQueryLoop fuel m (if err.isNone then some e1 else err) c.2.1
        | .ok key =>
          match QueryUnescape kv.2.1 with
          | .error e1 => parseQueryLoop fuel m (if err.isNone then some e1 else err) c.2.1
          | .ok value => parseQueryLoop fuel (Values.Add m key value) err c.2.1

/-- ParseQuery of package url. Every pass of the loop shortens `query`, so its length
bounds the number of passes. -/
def ParseQuery (query : GoString) : Values × Option QueryError :=
  parseQueryLoop (query.length + 1) [] none query

/-- The type URL of package url. -/
structure URL where
  Scheme : GoString
  Opaque : GoString
  User : Option (GoString × Option GoString)
  Host : GoString
  Path : GoString
  RawPath : GoString
  OmitHost : Bool
  ForceQuery : Bool
  RawQuery : GoString
  Fragment : GoString
  RawFragment : GoString
  deriving DecidableEq, Repr

/-- The method Query of URL: `v, _ := ParseQuery(u.RawQuery); return v`. -/
def URL.Query (u : URL) : Values := (ParseQuery u.RawQuery).1

/-! ## encoding/json: the scanner

The grammar accepted by the library's scanner, as a recursive-descent parser: it consumes
one JSON value from the front of the input and returns it with the bytes that follow.
String contents and object keys are kept raw (still escaped). -/

/-- A scanned JSON value. -/
inductive JSON where
  | null
  | bool (b : Bool)
  | num (lit : GoString)
  | string (raw : GoString)
  | arr (xs : List JSON)
  | obj (kvs : List (GoString × JSON))

/-- How scanning stops short of a value: an invalid byte (the library's SyntaxError), or
the end of the input inside a value. -/
inductive ScanErr where
  | invalid
  | short
  deriving DecidableEq, Repr

/-- The predicate `isSpace` of the scanner: space, tab, carriage return, line feed. -/
def jsonSpace (c : Byte) : Bool := decide (c = 32 ∨ c = 9 ∨ c = 13 ∨ c = 10)

def skipSpace : GoString → GoString
  | [] => []
  | c :: cs => if jsonSpace c then skipSpace cs else c :: cs

def isDigit (c : Byte) : Bool := decide (48 ≤ c.val ∧ c.val ≤ 57)

/-- The scanner inside a string literal, after the opening quote. `mode` 0 is the state
`stateInString`, 1 is `stateInStringEsc` (after a backslash), 2 to 5 are the states
expecting the four hex digits after `\u`. Returns the raw content and the input after the
closing quote. -/
def scanString : Nat → GoString → Except ScanErr (GoString × GoString)
  | _, [] => .error .short
  | mode, c :: rest =>
    if mode = 0 then
      if c = 34 then .ok ([], rest)
      else if c = 92 then
        match scanString 1 rest with
        | .ok (raw, r) => .ok (c :: raw, r)
        | .error e => .error e
      else if c.val < 0x20 then .error .invalid
      else
        match scanString 0 rest with
        | .ok (raw, r) => .ok (c :: raw, r)
        | .error e => .error e
    else if mode = 1 then
      if c = 98 ∨ c = 102 ∨ c = 110 ∨ c = 114 ∨ c = 116 ∨ c = 92 ∨ c = 47 ∨ c = 34 then
        match scanString 0 rest with
        | .ok (raw, r) => .ok (c :: raw, r)
        | .error e => .error e
      else if c = 117 then
        match scanString 2 rest with
        | .ok (raw, r) => .ok (c :: raw, r)
        | .error e => .error e
      else .error .invalid
    else if ishex c then
      match scanString (if mode = 5 then 0 else mode + 1) rest with
      | .ok (raw, r) => .ok (c :: raw, r)
      | .error e => .error e
    else .error .invalid

/-- The scanner inside a number. `mode`: 0 `stateNeg` (after `-`), 1 `state0` (after a
leading 0), 2 `state1` (integer digits), 3 `stateDot`, 4 `stateDot0`, 5 `stateE`,
6 `stateESign`, 7 `stateE0`. A byte that cannot continue the number ends it (and is not
consumed) in the states 1, 2, 4, 7 and is invalid in the others. -/
def scanNumber : Nat → GoString → Except ScanErr (GoString × GoString)
  | mode, [] => if mode = 1 ∨ mode = 2 ∨ mode = 4 ∨ mode = 7 then .ok ([], []) else .error .short
  | mode, c :: rest =>
    let next : Option Nat :=
      if mode = 0 then
        if c = 48 then some 1 else if isDigit c then some 2 else none
      else if mode = 1 then
        if c = 46 then some 3 else if c = 101 ∨ c = 69 then some 5 else none
      else if mode = 2 then
        if isDigit c then some 2
        else if c = 46 then some 3 else if c = 101 ∨ c = 69 then some 5 else none
      else if mode = 3 then
        if isDigit c then some 4 else none
      else if mode = 4 then
        if isDigit c then some 4 else if c = 101 ∨ c = 69 then some 5 else none
      else if mode = 5 then
        if c = 43 ∨ c = 45 then some 6 else if isDigit c then some 7 else none
      else if mode = 6 then
        if isDigit c then some 7 else none
      else
        if isDigit c then some 7 else none
    match next with
    | some m =>
      match scanNumber m rest with
      | .ok (lit, r) => .ok (c :: lit, r)
      | .error e => .error e
    | none =>
      if mode = 1 ∨ mode = 2 ∨ mode = 4 ∨ mode = 7 then .ok ([], c :: rest)
      else .error .invalid

/-- The scanner inside a literal (`true`, `false`, `null`): the bytes still expected. -/
def scanLiteral : GoString → GoString → Except ScanErr GoString
  | [], s => .ok s
  | _ :: _, [] => .error .short
  | e :: es, c :: rest => if c = e then scanLiteral es rest else .error .invalid

/-- The constant `maxNestingDepth` of the scanner. -/
def maxNestingDepth : Nat := 10000

mutual
/-- One JSON value at nesting depth `depth`. -/
def parseValue : Nat → Nat → GoString → Except ScanErr (JSON × GoString)
  | 0, _, _ => .error .short
  | fuel + 1, depth, s =>
    match skipSpace s with
    | [] => .error .short
    | c :: rest =>
      if c = 123 then
        if maxNestingDepth < depth + 1 then .error .invalid
        else
          match skipSpace rest with
          | [] => .error .short
          | c2 :: rest2 =>
            if c2 = 125 then .ok (.obj [], rest2)
            else
              match parseMembers fuel (depth + 1) (c2 :: rest2) with
              | .ok (kvs, r) => .ok (.obj kvs, r)
              | .error e => .error e
      else if c = 91 then
        if maxNestingDepth < depth + 1 then .error .invalid
        else
          match skipSpace rest with
          | [] => .error .short
          | c2 :: rest2 =>
            if c2 = 93 then .ok (.arr [], rest2)
            else
              match parseElems fuel (depth + 1) (c2 :: rest2) with
              | .ok (xs, r) => .ok (.arr xs, r)
              | .error e => .error e
      else if c = 34 then
        match scanString 0 rest with
        | .ok (raw, r) => .ok (.string raw, r)
        | .error e => .error e
      else if c = 45 then
        match scanNumber 0 rest with
        | .ok (lit, r) => .ok (.num (c :: lit), r)
        | .error e => .error e
      else if c = 48 then
        match scanNumber 1 rest with
        | .ok (lit, r) => .ok (.num (c :: lit), r)
        | .error e => .error e
      else if isDigit c then
        match scanNumber 2 rest with
        | .ok (lit, r) => .ok (.num (c :: lit), r)
        | .error e => .error e
      else if c = 116 then
        match scanLiteral (str "rue") rest with
        | .ok r => .ok (.bool true, r)
        | .error e => .error e
      else if c = 102 then
        match scanLiteral (str "alse") rest with
        | .ok r => .ok (.bool false, r)
        | .error e => .error e
      else if c = 110 then
        match scanLiteral (str "ull") rest with
        | .ok r => .ok (.null, r)
        | .error e => .error e
      else .error .invalid
/-- The elements of a non-empty array, up to and including the closing bracket. -/
def parseElems : Nat → Nat → GoString → Except ScanErr (List JSON × GoString)
  | 0, _, _ => .error .short
  | fuel + 1, depth, s =>
    match parseValue fuel depth s with
    | .error e => .error e
    | .ok (v, r) =>
      match skipSpace r with
      | [] => .error .short
      | c :: r2 =>
        if c = 44 then
          match parseElems fuel depth r2 with
          | .ok (vs, r3) => .ok (v :: vs, r3)
          | .error e => .error e
        else if c = 93 then .ok ([v], r2)
        else .error .invalid
/-- The members of a non-empty object, up to and including the closing brace. -/
def parseMembers : Nat → Nat → GoString → Except ScanErr (List (GoString × JSON) × GoString)
  | 0, _, _ => .error .short
  | fuel + 1, depth, s =>
    match skipSpace s with
    | [] => .error .short
    | c :: r =>
      if c ≠ 34 then .error .invalid
      else
        match scanString 0 r with
        | .error e => .error e
        | .ok (key, r1) =>
          match skipSpace r1 with
          | [] => .error .short
          | c2 :: r2 =>
            if c2 ≠ 58 then .error .invalid
            else
              match parseValue fuel depth r2 with
              | .error e => .error e
              | .ok (v, r3) =>
                match skipSpace r3 with
                | [] => .error .short
                | c3 :: r4 =>
                  if c3 = 44 then
                    match parseMembers fuel depth r4 with
                    | .ok (kvs, r5) => .ok ((key, v) :: kvs, r5)
                    | .error e => .error e
                  else if c3 = 125 then .ok ([(key, v)], r4)
                  else .error .invalid
end

/-! ## encoding/json: decoding into `SearchResponse` -/

/-- SearchResult represents a single search result. -/
structure SearchResult where
  Title : GoString
  URL : GoString
  Description : GoString
  deriving DecidableEq, Repr

/-- SearchResponse represents the response from SearXNG. `Results` is a Go slice: `none`
is the nil slice, `some xs` a non-nil slice with elements `xs`. -/
structure SearchResponse where
  Results : Option (List SearchResult)
  deriving DecidableEq, Repr

/-- The errors of `Decoder.Decode`: `io.EOF` (no value in the input), `io.ErrUnexpectedEOF`
(the input ends inside a value), an error of the reader, a SyntaxError, an
UnmarshalTypeError. -/
inductive DecodeError where
  | eof
  | unexpectedEOF
  | read (msg : GoString)
  | malformed
  | mismatch
  deriving DecidableEq, Repr

/-- Value of a hex digit, as in `getu4`. -/
def hexVal (c : Byte) : Nat :=
  if 48 ≤ c.val ∧ c.val ≤ 57 then c.val - 48
  else if 97 ≤ c.val ∧ c.val ≤ 102 then c.val - 97 + 10
  else if 65 ≤ c.val ∧ c.val ≤ 70 then c.val - 65 + 10
  else 0

/-- The function `getu4` of package json: the rune of a leading `\uXXXX`, or `none`
(Go: -1) when `s` does not start with one. -/
def getu4 (s : GoString) : Option Rune :=
  match s with
  | b :: u :: h1 :: h2 :: h3 :: h4 :: _ =>
    if b = 92 ∧ u = 117 ∧ ishex h1 ∧ ishex h2 ∧ ishex h3 ∧ ishex h4 then
      some (hexVal h1 * 4096 + hexVal h2 * 256 + hexVal h3 * 16 + hexVal h4)
    else none
  | _ => none

/-- IsSurrogate of package utf16. -/
def IsSurrogate (r : Rune) : Bool := decide (0xD800 ≤ r ∧ r < 0xE000)

/-- DecodeRune of package utf16: the rune of a surrogate pair, U+FFFD for an invalid pair. -/
def DecodeRune16 (r1 r2 : Rune) : Rune :=
  if 0xD800 ≤ r1 ∧ r1 < 0xDC00 ∧ 0xDC00 ≤ r2 ∧ r2 < 0xE000 then
    (r1 - 0xD800) * 1024 + (r2 - 0xDC00) + 0x10000
  else RuneError

/-- The output loop of `unquoteBytes`, on the raw content of a string that the scanner has
accepted: escapes are replaced, ASCII bytes copied, other bytes decoded as UTF-8 and
encoded again (which turns invalid UTF-8 into U+FFFD). -/
def unquoteAux : Nat → GoString → GoString
  | 0, _ => []
  | _ + 1, [] => []
  | fuel + 1, c :: rest =>
    if c = 92 then
      match rest with
      | [] => []
      | e :: rest2 =>
        if e = 117 then
          match getu4 (c :: rest) with
          | none => []
          | some rr =>
            let after := rest2.drop 4
            if IsSurrogate rr then
              match getu4 after with
              | some rr1 =>
                if DecodeRune16 rr rr1 ≠ RuneError then
                  EncodeRune (DecodeRune16 rr rr1) ++ unquoteAux fuel (after.drop 6)
                else EncodeRune RuneError ++ unquoteAux fuel after
              | none => EncodeRune RuneError ++ unquoteAux fuel after
            else EncodeRune rr ++ unquoteAux fuel after
        else
          let b : Byte :=
            if e = 98 then 8 else if e = 102 then 12 else if e = 110 then 10
            else if e = 114 then 13 else if e = 116 then 9 else e
          b :: unquoteAux fuel rest2
    else if c.val < 0x80 then c :: unquoteAux fuel rest
    else
      let d := DecodeRuneInString (c :: rest)
      EncodeRune d.1 ++ unquoteAux fuel ((c :: rest).drop d.2)

/-- The function `unquote` of package json on raw string content. -/
def unquote (raw : GoString) : GoString := unquoteAux raw.length raw

/-- The function `foldRune` of package json on the runes that matter for ASCII names:
lower-case ASCII letters fold to upper case, U+017F to `S`, U+212A to `K`. Every other
rune folds to a rune outside ASCII or to itself, and is left as it is. -/
def foldRune (r : Rune) : Rune :=
  if 97 ≤ r ∧ r ≤ 122 then r - 32
  else if r = 0x17F then 83
  else if r = 0x212A then 75
  else r

/-- The function `foldName` of package json, used to match object keys with field names
without regard to case. -/
def foldNameAux : Nat → GoString → GoString
  | 0, _ => []
  | _ + 1, [] => []
  | fuel + 1, c :: rest =>
    if c.val < 0x80 then Fin.ofNat (foldRune c.val) :: foldNameAux fuel rest
    else
      let d := DecodeRuneInString (c :: rest)
      EncodeRune (foldRune d.1) ++ foldNameAux fuel ((c :: rest).drop d.2)

def foldName (s : GoString) : GoString := foldNameAux s.length s

/-- An object key (raw) names the struct field with JSON name `name`: equal, or equal
under `foldName`. -/
def keyMatches (rawKey : GoString) (name : GoString) : Bool :=
  decide (unquote rawKey = name) || decide (foldName (unquote rawKey) = foldName name)

/-- Decoding a JSON value into a Go string variable holding `cur`: a string is stored,
`null` leaves the variable as it is, anything else is an UnmarshalTypeError. -/
def decodeString (cur : GoString) : JSON → Except DecodeError GoString
  | .string raw => .ok (unquote raw)
  | .null => .ok cur
  | _ => .error .mismatch

/-- Decoding the members of an object into a SearchResult variable, in order. -/
def decodeResultMembers : List (GoString × JSON) → SearchResult → Except DecodeError SearchResult
  | [], cur => .ok cur
  | (k, v) :: kvs, cur =>
    if keyMatches k (str "title") then
      match decodeString cur.Title v with
      | .ok t => decodeResultMembers kvs { cur with Title := t }
      | .error e => .error e
    else if keyMatches k (str "url") then
      match decodeString cur.URL v with
      | .ok t => decodeResultMembers kvs { cur with URL := t }
      | .error e => .error e
    else if keyMatches k (str "description") then
      match decodeString cur.Description v with
      | .ok t => decodeResultMembers kvs { cur with Description := t }
      | .error e => .error e
    else decodeResultMembers kvs cur

/-- Decoding a JSON value into a SearchResult variable holding `cur`. -/
def decodeResult (cur : SearchResult) : JSON → Except DecodeError SearchResult
  | .obj kvs => decodeResultMembers kvs cur
  | .null => .ok cur
  | _ => .error .mismatch

/-- The loop of `decodeState.array` on a slice of SearchResult: element `i` is decoded into
the element the slice already has at `i`, or into a zero value appended to it. -/
def decodeElems : List JSON → List SearchResult → Except DecodeError (List SearchResult)
  | [], _ => .ok []
  | x :: xs, old =>
    match decodeResult (old.headD { Title := [], URL := [], Description := [] }) x with
    | .error e => .error e
    | .ok r =>
      match decodeElems xs old.tail with
      | .ok rs => .ok (r :: rs)
      | .error e => .error e

/-- Decoding a JSON value into a `[]SearchResult` variable holding `cur`: `null` makes it
nil, an array replaces it (an empty array gives an empty, non-nil slice). -/
def decodeResults (cur : Option (List SearchResult)) : JSON
    → Except DecodeError (Option (List SearchResult))
  | .arr xs =>
    match decodeElems xs (cur.getD []) with
    | .ok rs => .ok (some rs)
    | .error e => .error e
  | .null => .ok none
  | _ => .error .mismatch

/-- Decoding the members of an object into a SearchResponse variable, in order. -/
def decodeResponseMembers : List (GoString × JSON) → SearchResponse
    → Except DecodeError SearchResponse
  | [], cur => .ok cur
  | (k, v) :: kvs, cur =>
    if keyMatches k (str "results") then
      match decodeResults cur.Results v with
      | .ok rs => decodeResponseMembers kvs { cur with Results := rs }
      | .error e => .error e
    else decodeResponseMembers kvs cur

/-- The method `decodeState.unmarshal` for a `*SearchResponse` holding `cur`. -/
def unmarshal (cur : SearchResponse) : JSON → Except DecodeError SearchResponse
  | .obj kvs => decodeResponseMembers kvs cur
  | .null => .ok cur
  | _ => .error .mismatch

/-- The value is an object or an array: its end is known at the closing bracket. Other
values end at the byte after them, or at the end of the input. -/
def JSON.isComposite : JSON → Bool
  | .obj _ => true
  | .arr _ => true
  | _ => false

/-- The call `json.NewDecoder(r).Decode(&searchResp)` with `searchResp` the zero value:
`input` are the bytes the reader delivers, `inputErr` the error that ends them (`none`
for `io.EOF`). The first JSON value of the input is scanned and decoded; bytes after it are
not looked at. -/
def Decode (input : GoString) (inputErr : Option GoString) : Except DecodeError SearchResponse :=
  match parseValue (2 * input.length + 2) 0 input with
  | .ok (v, rest) =>
    if rest = [] ∧ !v.isComposite ∧ inputErr.isSome then .error (.read (inputErr.getD []))
    else unmarshal { Results := none } v
  | .error .invalid => .error .malformed
  | .error .short =>
    match inputErr with
    | some e => .error (.read e)
    | none => if skipSpace input = [] then .error .eof else .error .unexpectedEOF

/-! ## encoding/json: encoding a `SearchResponse` -/

/-- The table `hex` of package json. -/
def hex : GoString := str "0123456789abcdef"

/-- The table `htmlSafeSet`: the ASCII bytes copied unescaped into a string literal. -/
def htmlSafeSet (b : Byte) : Bool :=
  decide (0x20 ≤ b.val ∧ b.val < 0x80 ∧ b ≠ 34 ∧ b ≠ 92 ∧ b ≠ 60 ∧ b ≠ 62 ∧ b ≠ 38)

/-- What `appendString` writes for a byte below `utf8.RuneSelf`: the byte itself when it is
in `htmlSafeSet`, else a short escape, else `\u00XX`. -/
def escapeASCII (b : Byte) : GoString :=
  if htmlSafeSet b then [b]
  else if b = 92 ∨ b = 34 then [92, b]
  else if b = 8 then [92, 98]
  else if b = 12 then [92, 102]
  else if b = 10 then [92, 110]
  else if b = 13 then [92, 114]
  else if b = 9 then [92, 116]
  else [92, 117, 48, 48, hex.getD (b.val / 16) 0, hex.getD (b.val % 16) 0]

/-- The loop of `appendString(dst, src, escapeHTML = true)`: the content of the string
literal for `src`. -/
def appendStringAux : Nat → GoString → GoString
  | 0, _ => []
  | _ + 1, [] => []
  | fuel + 1, b :: rest =>
    if b.val < 0x80 then escapeASCII b ++ appendStringAux fuel rest
    else
      let d := DecodeRuneInString (b :: rest)
      if d.1 = RuneError ∧ d.2 = 1 then str "\\ufffd" ++ appendStringAux fuel rest
      else if d.1 = 0x2028 ∨ d.1 = 0x2029 then
        str "\\u202" ++ [hex.getD (d.1 % 16) 0] ++ appendStringAux fuel ((b :: rest).drop d.2)
      else (b :: rest).take d.2 ++ appendStringAux fuel ((b :: rest).drop d.2)

/-- The function `appendString` of package json: a JSON string literal. -/
def appendString (src : GoString) : GoString :=
  [34] ++ appendStringAux src.length src ++ [34]

/-- One SearchResult as `MarshalIndent(v, "", "  ")` prints it at nesting depth 2. -/
def marshalResult (r : SearchResult) : GoString :=
  str "\x7b\n      \"title\": " ++ appendString r.Title
    ++ str ",\n      \"url\": " ++ appendString r.URL
    ++ str ",\n      \"description\": " ++ appendString r.Description
    ++ str "\n    \x7d"

/-- The elements of a non-empty slice, separated by a comma and a new line. -/
def marshalElems : List SearchResult → GoString
  | [] => []
  | [r] => marshalResult r
  | r :: rs => marshalResult r ++ str ",\n    " ++ marshalElems rs

/-- A `[]SearchResult`: `null` for the nil slice, `[]` for an empty one. -/
def marshalResults : Option (List SearchResult) → GoString
  | none => str "null"
  | some [] => str "[]"
  | some (r :: rs) => str "[\n    " ++ marshalElems (r :: rs) ++ str "\n  ]"

/-- The call `json.MarshalIndent(results, "", "  ")` for a non-nil `*SearchResponse`: the
result of `Marshal` laid out by `Indent`. It cannot fail for this type. -/
def MarshalIndent (r : SearchResponse) : GoString :=
  str "\x7b\n  \"results\": " ++ marshalResults r.Results ++ str "\n\x7d"

/-! ## What the program does not determine -/

/-- The type Request of package http, as far as `Search` sets it. -/
structure Request where
  Method : GoString
  URL : URL
  deriving DecidableEq, Repr

/-- The type Response of package http, as far as `Search` reads it: the status code, the
bytes that reading `Body` delivers, and the error that ends them (`none` for `io.EOF`). -/
structure Response where
  StatusCode : Int
  Body : GoString
  BodyErr : Option GoString
  deriving DecidableEq, Repr

/-- The surroundings of one run of the program.
* `args`: the command line after the program name; `stdin`, `stdinErr`: the bytes standard
  input delivers and the error that ends them (`none` for `io.EOF`);
* `parseRequestURL`: the URL that `http.NewRequest("GET", url, nil)` parses from its
  argument, or the text of its error;
* `Do`: `httpClient.Do` with the client's timeout: the response, or the text of its error;
* `ParseDuration`: `time.ParseDuration`, with `none` for an error;
* `decodeErrorText`: the method `Error` of the errors of package json;
* `progName`: `os.Args[0]`; `Quote`: `strconv.Quote`, which the verb `%q` applies. -/
structure Runtime where
  args : List GoString
  stdin : GoString
  stdinErr : Option GoString
  parseRequestURL : GoString → Except GoString URL
  Do : Int → Request → Except GoString Response
  ParseDuration : GoString → Option Int
  decodeErrorText : DecodeError → GoString
  progName : GoString
  Quote : GoString → GoString

/-! ## client/client.go -/

/-- Client represents a SearXNG client. Of `httpClient` only the timeout (in nanoseconds)
is kept. -/
structure Client where
  baseURL : GoString
  Timeout : Int
  deriving DecidableEq, Repr

/-- Option is a function type for client configuration. -/
abbrev Option_ := Client → Client

/-- WithTimeout sets a custom timeout for the HTTP client. -/
def WithTimeout (timeout : Int) : Option_ := fun c => { c with Timeout := timeout }

/-- NewClient creates a new SearXNG client. -/
def NewClient (baseURL : GoString) (opts : List Option_) : Client :=
  opts.foldl (fun c opt => opt c) { baseURL := baseURL, Timeout := 10 * 1000000000 }

/-- The request of `Search` once `http.NewRequest` has parsed the URL `u`: method GET, and
the query parameters added (`q := req.URL.Query(); q.Add("q", query);
q.Add("format", "json"); req.URL.RawQuery = q.Encode()`). -/
def searchRequest (u : URL) (query : GoString) : Request :=
  let q := u.Query
  let q := Values.Add q (str "q") query
  let q := Values.Add q (str "format") (str "json")
  { Method := str "GET", URL := { u with RawQuery := Values.Encode q } }

/-- Search performs a search query and returns results: the requests handed to
`httpClient.Do`, and the pair `(*SearchResponse, error)` as an `Except`. -/
def Search (rt : Runtime) (c : Client) (query : GoString) :
    List Request × Except GoString SearchResponse :=
  -- Construct search URL
  let searchURL := c.baseURL ++ str "/search"
  -- Create request
  match rt.parseRequestURL searchURL with
  | .error err => ([], .error (str "failed to create request: " ++ err))
  | .ok u =>
    -- Add query parameters
    let req := searchRequest u query
    -- Perform request
    match rt.Do c.Timeout req with
    | .error err => ([req], .error (str "failed to perform request: " ++ err))
    | .ok resp =>
      -- Check status code
      if resp.StatusCode ≠ 200 then
        ([req], .error (str "unexpected status code " ++ Itoa resp.StatusCode ++ str ": "
          ++ resp.Body))
      else
        -- Parse response
        match Decode resp.Body resp.BodyErr with
        | .error err =>
          ([req], .error (str "failed to decode response: " ++ rt.decodeErrorText err))
        | .ok searchResp => ([req], .ok searchResp)

/-! ## main.go -/

def defaultInstanceURL : GoString := str "http://localhost:4000"

def defaultTimeout : Int := 10 * 1000000000

structure config where
  instanceURL : GoString
  format : GoString
  timeout : Int
  deriving DecidableEq, Repr

/-- One call of `FlagSet.parseOne` of package flag for the three flags `url`, `format`,
`timeout`: a flag was seen (new values, remaining arguments), the flags are over, help was
asked for (`ErrHelp`), or parsing failed with the message that `failf` prints. -/
inductive ParseOne where
  | seen (cfg : config) (args : List GoString)
  | done
  | help
  | failed (msg : GoString)
  deriving DecidableEq, Repr

def parseOne (rt : Runtime) (cfg : config) (args : List GoString) : ParseOne :=
  match args with
  | [] => .done
  | s :: rest =>
    if s.length < 2 ∨ s.head? ≠ some 45 then .done
    else
      let numMinuses := if s.getD 1 0 = 45 then 2 else 1
      if numMinuses = 2 ∧ s.length = 2 then .done
      else
        let name := s.drop numMinuses
        if name.length = 0 ∨ name.head? = some 45 ∨ name.head? = some 61 then
          .failed (str "bad flag syntax: " ++ s)
        else
          -- it's a flag. does it have an argument?
          let c := Cut name.tail 61
          let hasValue := c.2.2
          let value := c.2.1
          let name := name.take 1 ++ c.1
          if name ≠ str "url" ∧ name ≠ str "format" ∧ name ≠ str "timeout" then
            if name = str "help" ∨ name = str "h" then .help
            else .failed (str "flag provided but not defined: -" ++ name)
          else
            -- It must have a value, which might be the next argument.
            let value := if !hasValue ∧ rest ≠ [] then rest.headD [] else value
            let rest2 := if !hasValue ∧ rest ≠ [] then rest.tail else rest
            if !hasValue ∧ rest = [] then .failed (str "flag needs an argument: -" ++ name)
            else if name = str "url" then .seen { cfg with instanceURL := value } rest2
            else if name = str "format" then .seen { cfg with format := value } rest2
            else
              match rt.ParseDuration value with
              | some d => .seen { cfg with timeout := d } rest2
              | none =>
                -- durationValue.Set replaces the error of time.ParseDuration by errParse
                .failed (str "invalid value " ++ rt.Quote value ++ str " for flag -" ++ name
                  ++ str ": " ++ str "parse error")

/-- How the loop of `FlagSet.Parse` ends: with the flag values, with `ErrHelp`, or with
the error whose message `failf` has printed. -/
inductive FlagParse where
  | parsed (cfg : config)
  | help
  | failed (msg : GoString)
  deriving DecidableEq, Repr

/-- The loop of `FlagSet.Parse`. Every flag seen consumes an argument. -/
def flagParseLoop (rt : Runtime) : Nat → config → List GoString → FlagParse
  | 0, cfg, _ => .parsed cfg
  | fuel + 1, cfg, args =>
    match parseOne rt cfg args with
    | .seen cfg2 rest => flagParseLoop rt fuel cfg2 rest
    | .done => .parsed cfg
    | .help => .help
    | .failed msg => .failed msg

/-- What `flag.Usage` prints for the three flags: the header with the program name, then
`PrintDefaults` (the flags in the order of their names). -/
def flagUsage (progName : GoString) : GoString :=
  str "Usage of " ++ progName ++ str ":\n"
    ++ str "  -format string\n    \tOutput format (json or text) (default \"json\")\n"
    ++ str "  -timeout duration\n    \tSearch timeout duration (default 10s)\n"
    ++ str "  -url string\n    \tSearXNG instance URL (default \"http://localhost:4000\")\n"

/-- The call `flag.Parse()` after the three flags are defined with their defaults. -/
def flagParse (rt : Runtime) : FlagParse :=
  flagParseLoop rt (rt.args.length + 1)
    { instanceURL := defaultInstanceURL, format := str "json", timeout := defaultTimeout }
    rt.args

/-- The result of `parseFlags`: the pair `(config, error)`, or the end of the process
inside `flag.Parse()` with its status and what package flag has written to standard error.
The command-line flag set has the error handling `ExitOnError`: after `ErrHelp`, for which
only the usage was printed, `os.Exit(0)`; after a failure, for which `failf` printed the
message, a new line and the usage, `os.Exit(2)`. -/
inductive ParseFlags where
  | returned (cfg : config) (err : Option GoString)
  | exit (code : Nat) (stderr : GoString)
  deriving DecidableEq, Repr

def parseFlags (rt : Runtime) : ParseFlags :=
  match flagParse rt with
  | .help => .exit 0 (flagUsage rt.progName)
  | .failed msg => .exit 2 (msg ++ [10] ++ flagUsage rt.progName)
  | .parsed cfg =>
    -- Validate format
    if cfg.format ≠ str "json" ∧ cfg.format ≠ str "text" then
      .returned cfg (some (str "invalid format: " ++ cfg.format
        ++ str " (must be 'json' or 'text')"))
    else .returned cfg none

/-- The method `ReadString(delim)` of a `bufio.Reader` at the start of its input: the
bytes up to and including the first `delim` and no error, or all the input and the error
that ends it. -/
def ReadString (input : GoString) (inputErr : Option GoString) (delim : Byte) :
    GoString × Option GoString :=
  let c := Cut input delim
  if c.2.2 then (c.1 ++ [delim], none) else (input, some (inputErr.getD (str "EOF")))

def readQuery (rt : Runtime) : Except GoString GoString :=
  let r := ReadString rt.stdin rt.stdinErr 10
  match r.2 with
  | some err => .error (str "failed to read input: " ++ err)
  | none =>
    let query := TrimSpace r.1
    if query = [] then .error (str "search query cannot be empty")
    else .ok query

/-- The verb `%+v` for a `*SearchResponse`. -/
def formatPlusV (r : SearchResponse) : GoString :=
  str "&\x7bResults:["
    ++ (str " ").intercalate ((r.Results.getD []).map (fun x =>
        str "\x7bTitle:" ++ x.Title ++ str " URL:" ++ x.URL ++ str " Description:"
          ++ x.Description ++ str "\x7d"))
    ++ str "]\x7d"

/-- The function `outputJSON`: what it prints and the error it returns. -/
def outputJSON (results : SearchResponse) : GoString × Option GoString :=
  let jsonOutput := MarshalIndent results
  (jsonOutput ++ [10], none)

def outputText (results : SearchResponse) : GoString × Option GoString :=
  (formatPlusV results ++ [10], none)

def outputResults (results : SearchResponse) (format : GoString) : GoString × Option GoString :=
  if format = str "json" then outputJSON results
  else if format = str "text" then outputText results
  else ([], some (str "unsupported format: " ++ format))

/-- What a run has done to the outside. -/
structure Effects where
  stdinRead : Bool
  clients : List Client
  requests : List Request
  stdout : GoString
  deriving DecidableEq, Repr

/-- The result of `run`: the error it returns with the effects so far, or the end of the
process inside `flag.Parse()`. -/
inductive Run where
  | returned (err : Option GoString) (eff : Effects)
  | exit (code : Nat) (stderr : GoString)
  deriving DecidableEq, Repr

def run (rt : Runtime) : Run :=
  match parseFlags rt with
  | .exit code stderr => .exit code stderr
  | .returned _ (some err) =>
    .returned (some (str "failed to parse flags: " ++ err))
      { stdinRead := false, clients := [], requests := [], stdout := [] }
  | .returned cfg none =>
    -- Read the query from stdin
    match readQuery rt with
    | .error err =>
      .returned (some err) { stdinRead := true, clients := [], requests := [], stdout := [] }
    | .ok query =>
      -- Initialize the SearXNG client with timeout
      let searxClient := NewClient cfg.instanceURL [WithTimeout cfg.timeout]
      -- Perform the search
      let r := Search rt searxClient query
      match r.2 with
      | .error err =>
        .returned (some (str "search failed: " ++ err))
          { stdinRead := true, clients := [searxClient], requests := r.1, stdout := [] }
      | .ok results =>
        -- Output results based on format
        let o := outputResults results cfg.format
        .returned o.2
          { stdinRead := true, clients := [searxClient], requests := r.1, stdout := o.1 }

/-- The process as seen from outside when it has ended. -/
structure Process where
  exitCode : Nat
  stderr : GoString
  eff : Effects
  deriving DecidableEq, Repr

def main (rt : Runtime) : Process :=
  match run rt with
  | .exit code stderr =>
    { exitCode := code, stderr := stderr,
      eff := { stdinRead := false, clients := [], requests := [], stdout := [] } }
  | .returned (some err) eff =>
    { exitCode := 1, stderr := str "Error: " ++ err ++ [10], eff := eff }
  | .returned none eff => { exitCode := 0, stderr := [], eff := eff }

/-! ## A concrete run, for examples -/

/-- The URL that `http.NewRequest` parses from `http://localhost:4000/search`. -/
def localhostSearchURL : URL :=
  { Scheme := str "http", Opaque := [], User := none, Host := str "localhost:4000",
    Path := str "/search", RawPath := [], OmitHost := false, ForceQuery := false,
    RawQuery := [], Fragment := [], RawFragment := [] }

/-- A run with the given command line and standard input against a server at the default
address that answers every request with the given status and body. No duration parses,
and `Quote` only adds the quotes, which is what `strconv.Quote` does for printable ASCII
text without quotes and backslashes. -/
def exampleRuntime (args : List GoString) (stdin : GoString) (status : Int)
    (body : GoString) : Runtime :=
  { args := args, stdin := stdin, stdinErr := none,
    parseRequestURL := fun s =>
      if s = str "http://localhost:4000/search" then .ok localhostSearchURL
      else .error (str "not part of the example"),
    Do := fun _ _ => .ok { StatusCode := status, Body := body, BodyErr := none },
    ParseDuration := fun _ => none,
    decodeErrorText := fun _ => str "decoding error",
    progName := str "seax",
    Quote := fun s => [34] ++ s ++ [34] }

/-- The UTF-8 encoding of a sequence of runes. -/
def utf8 (rs : List Rune) : GoString := rs.flatMap EncodeRune

instance instDecidableEqExcept {ε α : Type} [DecidableEq ε] [DecidableEq α] :
    DecidableEq (Except ε α) := fun a b =>
  match a, b with
  | .ok x, .ok y => if h : x = y then isTrue (by rw [h]) else isFalse (by intro h2; cases h2; exact h rfl)
  | .error x, .error y =>
    if h : x = y then isTrue (by rw [h]) else isFalse (by intro h2; cases h2; exact h rfl)
  | .ok _, .error _ => isFalse (by intro h; cases h)
  | .error _, .ok _ => isFalse (by intro h; cases h)

/-! ## The shape of a response body

Not part of the program: what "a JSON document of the SearchResponse shape" means for the
first JSON value of a body, written without the decoder. -/

/-- A JSON string or `null`. -/
def stringOrNull : JSON → Bool
  | .string _ => true
  | .null => true
  | _ => false

/-- One search result: `null`, or an object in which every member named `title`, `url` or
`description` (as the decoder matches names, ignoring case) is a string or `null`. Members
with other names may hold anything. -/
def resultShape : JSON → Bool
  | .null => true
  | .obj kvs =>
    kvs.all (fun kv =>
      if keyMatches kv.1 (str "title") ∨ keyMatches kv.1 (str "url")
          ∨ keyMatches kv.1 (str "description") then stringOrNull kv.2
      else true)
  | _ => false

/-- The list of results: `null`, or an array of search results. -/
def resultsShape : JSON → Bool
  | .null => true
  | .arr xs => xs.all resultShape
  | _ => false

/-- A response: `null`, or an object in which every member named `results` is a list of
results. Members with other names may hold anything; `results` may be absent. -/
def responseShape : JSON → Bool
  | .null => true
  | .obj kvs =>
    kvs.all (fun kv => if keyMatches kv.1 (str "results") then resultsShape kv.2 else true)
  | _ => false

/-- The body starts, after white space, with a complete JSON value of the SearchResponse
shape. A value that is not an object or array is complete when a byte follows it or the
input ends with `io.EOF`. Bytes after the value are not looked at. -/
def bodyAccepted (body : GoString) (bodyErr : Option GoString) : Bool :=
  match parseValue (2 * body.length + 2) 0 body with
  | .ok (v, rest) =>
    responseShape v && (v.isComposite || decide (rest ≠ []) || bodyErr.isNone)
  | .error _ => false

/-! ## Checks over all bytes -/

/-- No byte that `escapeByte` writes is a space, `&`, `=` or `;`. -/
def escapeByteClean (c : Byte) : Bool :=
  (escapeByte c).all (fun b => b != 32 && b != 38 && b != 61 && b != 59)

/-- The three shapes of what `escapeByte` writes, each undone by QueryUnescape. -/
def escapeByteShape (c : Byte) : Bool :=
  match escapeByte c with
  | [x] => (x == 43 && c == 32) || (x == c && c != 37 && c != 43)
  | [p, a, b] => p == 37 && ishex a && ishex b && (unhex a * 16 + unhex b == c)
  | _ => false

/-- The shapes of what `escapeASCII` writes: a plain byte, a two-byte escape, or `\u00XX`,
each standing for the byte. -/
def escapeASCIIShape (b : Byte) : Bool :=
  match escapeASCII b with
  | [c] => c == b && c != 34 && c != 92 && decide (0x20 ≤ c.val)
  | [p, x] =>
    p == 92 && x != 117
      && (x == 98 || x == 102 || x == 110 || x == 114 || x == 116 || x == 92 || x == 47
          || x == 34)
      && ((if x = 98 then 8 else if x = 102 then 12 else if x = 110 then 10
            else if x = 114 then 13 else if x = 116 then 9 else x) == b)
  | [p, u, z1, z2, h1, h2] =>
    p == 92 && u == 117 && z1 == 48 && z2 == 48 && ishex h1 && ishex h2
      && (hexVal h1 * 16 + hexVal h2 == b.val)
  | _ => false

/-- The first byte of the message of a failed `parseOne` is `b`, `f` or `i`. -/
def failHead : ParseOne → Bool
  | .failed msg => decide (msg.head? = some 98 ∨ msg.head? = some 102 ∨ msg.head? = some 105)
  | _ => true

/-! # Theorems -/

/-! ## Facts about net/url -/

theorem sorted_search_keys :
    List.insertionSort (fun a b => strLe a b = true) [str "q", str "format"]
      = [str "format", str "q"] := by decide

theorem encode_search_params (query : GoString) :
    Values.Encode (Values.Add (Values.Add [] (str "q") query) (str "format") (str "json"))
      = str "format=json&q=" ++ QueryEscape query := by
  have h : Values.Add (Values.Add [] (str "q") query) (str "format") (str "json")
      = [(str "q", [query]), (str "format", [str "json"])] := by
    simp [Values.Add]
    decide
  rw [h]
  have e1 : QueryEscape (str "format") = str "format" := by decide
  have e2 : QueryEscape (str "json") = str "json" := by decide
  have e3 : QueryEscape (str "q") = str "q" := by decide
  have n1 : (str "q" = str "format") = False := by simp; decide
  have n2 : (str "format" = str "q") = False := by simp; decide
  simp only [Values.Encode, List.map, sorted_search_keys, List.foldl, Values.get, List.find?,
    n1, n2, decide_True, decide_False, e1, e2, e3]
  have c1 : ((if 0 < ([] : GoString).length then ([] : GoString) ++ [38] else [])
      ++ str "format" ++ [61] ++ str "json") = str "format=json" := by decide
  rw [c1]
  have c2 : (if 0 < List.length (str "format=json") then str "format=json" ++ [38]
      else str "format=json") ++ str "q" ++ [61] = str "format=json&q=" := by decide
  rw [c2]

theorem query_of_empty (u : URL) (h : u.RawQuery = []) : u.Query = [] := by
  simp [URL.Query, ParseQuery, parseQueryLoop, h]

theorem searchRequest_of_empty (u : URL) (query : GoString) (h : u.RawQuery = []) :
    searchRequest u query
      = { Method := str "GET",
          URL := { u with RawQuery := str "format=json&q=" ++ QueryEscape query } } := by
  simp only [searchRequest, query_of_empty u h, encode_search_params]

/-- The request of a search whose URL parses: exactly one, the one of `searchRequest`. -/
theorem Search_requests (rt : Runtime) (c : Client) (query : GoString) (u : URL)
    (hu : rt.parseRequestURL (c.baseURL ++ str "/search") = .ok u) :
    (Search rt c query).1 = [searchRequest u query] := by
  simp only [Search, hu]
  cases rt.Do c.Timeout (searchRequest u query) with
  | error e => rfl
  | ok resp =>
    simp only
    split
    · rfl
    · cases Decode resp.Body resp.BodyErr <;> rfl

theorem escapeByteClean_all : ∀ c : Byte, escapeByteClean c = true := by decide!

theorem QueryEscape_clean (s : GoString) :
    ∀ b ∈ QueryEscape s, b ≠ 32 ∧ b ≠ 38 ∧ b ≠ 61 ∧ b ≠ 59 := by
  intro b hb
  simp only [QueryEscape, List.mem_flatMap] at hb
  obtain ⟨c, _, hc⟩ := hb
  have h := escapeByteClean_all c
  simp only [escapeByteClean, List.all_eq_true] at h
  have h2 := h b hc
  simp only [Bool.and_eq_true, bne_iff_ne, ne_eq] at h2
  exact ⟨h2.1.1.1, h2.1.1.2, h2.1.2, h2.2⟩

theorem escapeByteShape_all : ∀ c : Byte, escapeByteShape c = true := by decide!

theorem QueryUnescape_plain (c : Byte) (t : GoString) (h : c ≠ 37) :
    QueryUnescape (c :: t)
      = match QueryUnescape t with
        | .ok r => .ok ((if c = 43 then 32 else c) :: r)
        | .error e => .error e := by
  conv => lhs; unfold QueryUnescape
  simp only [h, if_false]

theorem QueryUnescape_hex (a b : Byte) (t : GoString) (ha : ishex a = true)
    (hb : ishex b = true) :
    QueryUnescape (37 :: a :: b :: t)
      = match QueryUnescape t with
        | .ok r => .ok ((unhex a * 16 + unhex b) :: r)
        | .error e => .error e := by
  conv => lhs; unfold QueryUnescape
  simp only [ha, hb, and_self, if_true]

theorem QueryUnescape_escapeByte (c : Byte) (t : GoString) :
    QueryUnescape (escapeByte c ++ t)
      = match QueryUnescape t with
        | .ok r => .ok (c :: r)
        | .error e => .error e := by
  have h := escapeByteShape_all c
  unfold escapeByteShape at h
  split at h
  · rename_i x hx
    rw [hx]
    simp only [Bool.or_eq_true, Bool.and_eq_true, beq_iff_eq, bne_iff_ne] at h
    rcases h with ⟨h1, h2⟩ | ⟨⟨h1, h2⟩, h3⟩
    · subst h1 h2
      rw [List.singleton_append, QueryUnescape_plain _ _ (by decide)]
      simp
    · subst h1
      rw [List.singleton_append, QueryUnescape_plain _ _ h2]
      simp [h3]
  · rename_i p a b hx
    rw [hx]
    simp only [Bool.and_eq_true, beq_iff_eq] at h
    obtain ⟨⟨⟨h1, h2⟩, h3⟩, h4⟩ := h
    subst h1
    show QueryUnescape (37 :: a :: b :: t) = _
    rw [QueryUnescape_hex _ _ _ h2 h3, h4]
  · simp at h

theorem QueryUnescape_QueryEscape (s : GoString) : QueryUnescape (QueryEscape s) = .ok s := by
  induction s with
  | nil => simp [QueryEscape, QueryUnescape]
  | cons c t ih =>
    have : QueryEscape (c :: t) = escapeByte c ++ QueryEscape t := by simp [QueryEscape]
    rw [this, QueryUnescape_escapeByte, ih]

theorem Cut_not_mem (s : GoString) (sep : Byte) (h : sep ∉ s) : Cut s sep = (s, [], false) := by
  induction s with
  | nil => rfl
  | cons c t ih =>
    simp only [List.mem_cons, not_or] at h
    have hc : ¬ c = sep := fun e => h.1 e.symm
    simp [Cut, hc, ih h.2]

theorem Cut_append_sep (s t : GoString) (sep : Byte) (h : sep ∉ s) :
    Cut (s ++ sep :: t) sep = (s, t, true) := by
  induction s with
  | nil => simp [Cut]
  | cons c r ih =>
    simp only [List.mem_cons, not_or] at h
    have hc : ¬ c = sep := fun e => h.1 e.symm
    simp [Cut, hc, ih h.2]

theorem parseQueryLoop_search (n : Nat) (query : GoString) :
    parseQueryLoop (n + 3) [] none (str "format=json&q=" ++ QueryEscape query)
      = ([(str "format", [str "json"]), (str "q", [query])], none) := by
  have hclean := QueryEscape_clean query
  have s1 : str "format=json&q=" ++ QueryEscape query
      = str "format=json" ++ 38 :: (str "q" ++ 61 :: QueryEscape query) := by
    have : str "format=json&q=" = str "format=json" ++ 38 :: (str "q" ++ [61]) := by decide
    rw [this]; simp
  have c1 : Cut (str "format=json" ++ 38 :: (str "q" ++ 61 :: QueryEscape query)) 38
      = (str "format=json", str "q" ++ 61 :: QueryEscape query, true) :=
    Cut_append_sep _ _ _ (by decide)
  have m2 : (38 : Byte) ∉ str "q" ++ 61 :: QueryEscape query := by
    intro h
    rcases List.mem_append.1 h with h | h
    · revert h; decide
    · rcases List.mem_cons.1 h with h | h
      · revert h; decide
      · exact (hclean _ h).2.1 rfl
  have m3 : (59 : Byte) ∉ str "q" ++ 61 :: QueryEscape query := by
    intro h
    rcases List.mem_append.1 h with h | h
    · revert h; decide
    · rcases List.mem_cons.1 h with h | h
      · revert h; decide
      · exact (hclean _ h).2.2.2 rfl
  have c2 : Cut (str "q" ++ 61 :: QueryEscape query) 38
      = (str "q" ++ 61 :: QueryEscape query, [], false) := Cut_not_mem _ _ m2
  have c3 : Cut (str "q" ++ 61 :: QueryEscape query) 61 = (str "q", QueryEscape query, true) :=
    Cut_append_sep _ _ _ (by decide)
  have c4 : Cut (str "format=json") 61 = (str "format", str "json", true) := by decide
  have u1 : QueryUnescape (str "format") = .ok (str "format") := by decide
  have u2 : QueryUnescape (str "json") = .ok (str "json") := by decide
  have u3 : QueryUnescape (str "q") = .ok (str "q") := by decide
  have ne1 : ¬ (str "format=json" ++ 38 :: (str "q" ++ 61 :: QueryEscape query) = []) := by simp
  have ne2 : ¬ (str "q" ++ 61 :: QueryEscape query = []) := by simp
  have ne3 : ¬ (str "format=json" = []) := by decide
  have m1 : (59 : Byte) ∉ str "format=json" := by decide
  have a1 : Values.Add (Values.Add [] (str "format") (str "json")) (str "q") query
      = [(str "format", [str "json"]), (str "q", [query])] := by
    simp [Values.Add]
    decide
  rw [s1]
  simp only [parseQueryLoop, ne1, c1, m1, ne3, c4, u1, u2, if_false, ne2, c2, m3, c3, u3,
    QueryUnescape_QueryEscape, a1, if_true]

theorem ParseQuery_search (query : GoString) :
    ParseQuery (str "format=json&q=" ++ QueryEscape query)
      = ([(str "format", [str "json"]), (str "q", [query])], none) := by
  have h : (str "format=json&q=" ++ QueryEscape query).length + 1
      = ((QueryEscape query).length + 12) + 3 := by
    have : (str "format=json&q=").length = 14 := by decide
    simp [this]; omega
  rw [ParseQuery, h, parseQueryLoop_search]

/-- The one request of a search whose URL parses without a query string. -/
theorem Search_request_of_empty (rt : Runtime) (c : Client) (query : GoString) (u : URL)
    (hu : rt.parseRequestURL (c.baseURL ++ str "/search") = .ok u) (hq : u.RawQuery = []) :
    (Search rt c query).1
      = [{ Method := str "GET",
           URL := { u with RawQuery := str "format=json&q=" ++ QueryEscape query } }] := by
  rw [Search_requests rt c query u hu, searchRequest_of_empty u query hq]

/-- C1, as amended: when `http.NewRequest` parses `baseURL + "/search"` into a URL without a
query string, `Search` hands exactly one request to the HTTP client; its method is GET and
its URL is the parsed one with the query string `format=json&q=<escaped query>`: the
parameter `format=json` first, the parameter `q` second, and no other. -/
theorem C1_search_request (rt : Runtime) (c : Client) (query : GoString) (u : URL)
    (hu : rt.parseRequestURL (c.baseURL ++ str "/search") = .ok u) (hq : u.RawQuery = []) :
    (Search rt c query).1
      = [{ Method := str "GET",
           URL := { u with RawQuery := str "format=json&q=" ++ QueryEscape query } }] :=
  Search_request_of_empty rt c query u hu hq

theorem C1_search_request_witness :
    (Search (exampleRuntime [] [] 200 (str "\x7b\x7d")) (NewClient defaultInstanceURL [])
        (str "cats")).1
      = [{ Method := str "GET",
           URL := { localhostSearchURL with
             RawQuery := str "format=json&q=" ++ QueryEscape (str "cats") } }] :=
  C1_search_request (exampleRuntime [] [] 200 (str "\x7b\x7d")) (NewClient defaultInstanceURL [])
    (str "cats") localhostSearchURL (by decide) (by decide)

/-- C1 as stated fails: for the base URL `http://localhost:4000` and the query `cats` the
query string of the request is `format=json&q=cats`, not `q=cats&format=json`. -/
theorem C1_counterexample :
    (Search (exampleRuntime [] [] 200 (str "\x7b\x7d")) (NewClient defaultInstanceURL [])
        (str "cats")).1.map (fun r => r.URL.RawQuery) = [str "format=json&q=cats"]
      ∧ str "format=json&q=cats" ≠ str "q=cats&format=json" := by
  decide

/-- C6, as amended: in the URL of the request that `Search` builds, every byte of the query
is written by `escapeByte`: a space as `+`, `&` as `%26`, `=` as `%3D`; none of the three
appears as the literal character in the escaped query. -/
theorem C6_query_escaped (rt : Runtime) (c : Client) (query : GoString) (u : URL)
    (hu : rt.parseRequestURL (c.baseURL ++ str "/search") = .ok u) (hq : u.RawQuery = []) :
    ∃ req, (Search rt c query).1 = [req]
      ∧ req.URL.RawQuery = str "format=json&q=" ++ query.flatMap escapeByte
      ∧ escapeByte 32 = str "+" ∧ escapeByte 38 = str "%26" ∧ escapeByte 61 = str "%3D"
      ∧ ∀ b ∈ query.flatMap escapeByte, b ≠ 32 ∧ b ≠ 38 ∧ b ≠ 61 := by
  refine ⟨_, Search_request_of_empty rt c query u hu hq, rfl, by decide, by decide, by decide, ?_⟩
  intro b hb
  have h := QueryEscape_clean query b hb
  exact ⟨h.1, h.2.1, h.2.2.1⟩

theorem C6_query_escaped_witness :
    ∃ req, (Search (exampleRuntime [] [] 200 (str "\x7b\x7d")) (NewClient defaultInstanceURL [])
          (str "a b&c=d")).1 = [req]
      ∧ req.URL.RawQuery = str "format=json&q=" ++ (str "a b&c=d").flatMap escapeByte
      ∧ escapeByte 32 = str "+" ∧ escapeByte 38 = str "%26" ∧ escapeByte 61 = str "%3D"
      ∧ ∀ b ∈ (str "a b&c=d").flatMap escapeByte, b ≠ 32 ∧ b ≠ 38 ∧ b ≠ 61 :=
  C6_query_escaped (exampleRuntime [] [] 200 (str "\x7b\x7d")) (NewClient defaultInstanceURL [])
    (str "a b&c=d") localhostSearchURL (by decide) (by decide)

/-- C6 as stated fails: for the query `a b` the request URL has the query string
`format=json&q=a+b`; the space is written `+`, and `%20` does not occur. -/
theorem C6_counterexample :
    (Search (exampleRuntime [] [] 200 (str "\x7b\x7d")) (NewClient defaultInstanceURL [])
        (str "a b")).1.map (fun r => r.URL.RawQuery) = [str "format=json&q=a+b"]
      ∧ QueryEscape (str " ") = str "+" ∧ QueryEscape (str " ") ≠ str "%20" := by
  decide

/-- C10: when `http.NewRequest` parses `baseURL + "/search"` into a URL without a query
string, parsing the query string of the request that `Search` builds gives exactly two
parameters with one value each, `format` equal to `json` and `q` equal to the query,
byte for byte, and no error. -/
theorem C10_query_round_trip (rt : Runtime) (c : Client) (query : GoString) (u : URL)
    (hu : rt.parseRequestURL (c.baseURL ++ str "/search") = .ok u) (hq : u.RawQuery = []) :
    ∃ req, (Search rt c query).1 = [req]
      ∧ ParseQuery req.URL.RawQuery
          = ([(str "format", [str "json"]), (str "q", [query])], none) :=
  ⟨_, Search_request_of_empty rt c query u hu hq, ParseQuery_search query⟩

theorem C10_query_round_trip_witness :
    ∃ req, (Search (exampleRuntime [] [] 200 (str "\x7b\x7d")) (NewClient defaultInstanceURL [])
          (str "a b&c=d+e%f#g;h") ).1 = [req]
      ∧ ParseQuery req.URL.RawQuery
          = ([(str "format", [str "json"]), (str "q", [str "a b&c=d+e%f#g;h"])], none) :=
  C10_query_round_trip (exampleRuntime [] [] 200 (str "\x7b\x7d"))
    (NewClient defaultInstanceURL []) (str "a b&c=d+e%f#g;h") localhostSearchURL
    (by decide) (by decide)

/-! ## Facts about `%d` -/

theorem fmtDecimal_spec : ∀ (fuel u : Nat) (buf : GoString), u ≤ fuel →
    ∃ ds : GoString, fmtDecimal fuel u buf = ds ++ buf ∧ ds ≠ []
      ∧ (∀ b ∈ ds, isDigit b = true)
      ∧ (∀ a : Nat, ds.foldl (fun acc b => 10 * acc + (b.val - 48)) a
          = a * 10 ^ ds.length + u)
      ∧ (0 < u → ds.head? ≠ some 48) ∧ (u = 0 → ds = [48]) := by
  intro fuel
  induction fuel with
  | zero =>
    intro u buf hu
    have h0 : u = 0 := by omega
    subst h0
    refine ⟨[48], rfl, by simp, ?_, fun a => ?_, fun h => absurd h (by omega), fun _ => rfl⟩
    · intro b hb
      simp only [List.mem_singleton] at hb
      subst hb
      rfl
    · have e : ((48 : Byte)).val = 48 := rfl
      simp only [List.foldl, e, List.length_singleton, pow_one]
      omega
  | succ n ih =>
    intro u buf hu
    by_cases h10 : 10 ≤ u
    · obtain ⟨ds, h1, h2, h3, h4, h5, _⟩ :=
        ih (u / 10) (Fin.ofNat (48 + (u - u / 10 * 10)) :: buf) (by omega)
      have hd : ((Fin.ofNat (48 + (u - u / 10 * 10)) : Byte)).val = 48 + u % 10 := by
        simp only [Fin.ofNat]
        omega
      refine ⟨ds ++ [Fin.ofNat (48 + (u - u / 10 * 10))], ?_, by simp, ?_, fun a => ?_,
        fun _ => ?_, fun h => absurd h (by omega)⟩
      · simp only [fmtDecimal, h10, if_true, h1, List.append_assoc, List.singleton_append]
      · intro b hb
        rcases List.mem_append.1 hb with hb | hb
        · exact h3 b hb
        · simp only [List.mem_singleton] at hb
          subst hb
          simp only [isDigit, hd, decide_eq_true_eq]
          omega
      · rw [List.foldl_append, h4 a]
        simp only [List.foldl, hd, List.length_append, List.length_singleton, pow_succ]
        have := Nat.div_add_mod u 10
        have e : 48 + u % 10 - 48 = u % 10 := by omega
        rw [e]
        nlinarith [Nat.div_add_mod u 10]
      · have hpos : 0 < u / 10 := by omega
        match ds, h2, h5 hpos with
        | d :: ds1, _, h => simpa using h
    · have hd : ((Fin.ofNat (48 + u) : Byte)).val = 48 + u := by
        simp only [Fin.ofNat]
        omega
      refine ⟨[Fin.ofNat (48 + u)], ?_, by simp, ?_, fun a => ?_, fun hu0 => ?_, fun h0 => ?_⟩
      · simp only [fmtDecimal, h10, if_false, List.singleton_append]
      · intro b hb
        simp only [List.mem_singleton] at hb
        subst hb
        simp only [isDigit, hd, decide_eq_true_eq]
        omega
      · simp only [List.foldl, hd, List.length_singleton, pow_one]
        omega
      · intro h
        simp only [List.head?, Option.some.injEq] at h
        have e : ((48 : Byte)).val = 48 := rfl
        have := congrArg Fin.val h
        rw [hd, e] at this
        omega
      · subst h0
        rfl

/-- What `%d` prints: an optional minus sign, then at least one decimal digit, without a
leading zero unless the only digit is `0`, and the digits denote the absolute value. -/
theorem Itoa_spec (n : Int) :
    ∃ digits : GoString, Itoa n = (if n < 0 then [45] else []) ++ digits ∧ digits ≠ []
      ∧ (∀ b ∈ digits, isDigit b = true) ∧ (digits = [48] ∨ digits.head? ≠ some 48)
      ∧ decimalValue digits = n.natAbs := by
  have key : ∀ m : Nat, natDigits m ≠ [] ∧ (∀ b ∈ natDigits m, isDigit b = true)
      ∧ (natDigits m = [48] ∨ (natDigits m).head? ≠ some 48)
      ∧ decimalValue (natDigits m) = m := by
    intro m
    obtain ⟨ds, h1, h2, h3, h4, h5, h6⟩ := fmtDecimal_spec m m [] (le_refl m)
    have e : natDigits m = ds := by simpa [natDigits] using h1
    rw [e]
    refine ⟨h2, h3, ?_, ?_⟩
    · rcases Nat.eq_zero_or_pos m with h | h
      · exact Or.inl (h6 h)
      · exact Or.inr (h5 h)
    · have := h4 0
      simpa [decimalValue] using this
  by_cases hn : n < 0
  · refine ⟨natDigits n.natAbs, by simp [Itoa, hn], (key _).1, (key _).2.1, (key _).2.2.1,
      (key _).2.2.2⟩
  · have e : n.toNat = n.natAbs := by omega
    refine ⟨natDigits n.natAbs, by simp [Itoa, hn, e], (key _).1, (key _).2.1, (key _).2.2.1,
      (key _).2.2.2⟩

theorem Itoa_500 : Itoa 500 = str "500" := by rfl

/-! ## Facts about `Search`, `run` and `main` -/

theorem Search_non_200 (rt : Runtime) (c : Client) (query : GoString) (u : URL) (resp : Response)
    (hu : rt.parseRequestURL (c.baseURL ++ str "/search") = .ok u)
    (hd : rt.Do c.Timeout (searchRequest u query) = .ok resp) (hs : resp.StatusCode ≠ 200) :
    (Search rt c query).2
      = .error (str "unexpected status code " ++ Itoa resp.StatusCode ++ str ": " ++ resp.Body) := by
  simp only [Search, hu, hd, hs, ne_eq, not_false_eq_true, if_true]

theorem Search_200 (rt : Runtime) (c : Client) (query : GoString) (u : URL) (resp : Response)
    (hu : rt.parseRequestURL (c.baseURL ++ str "/search") = .ok u)
    (hd : rt.Do c.Timeout (searchRequest u query) = .ok resp) (hs : resp.StatusCode = 200) :
    (Search rt c query).2
      = match Decode resp.Body resp.BodyErr with
        | .error err => .error (str "failed to decode response: " ++ rt.decodeErrorText err)
        | .ok v => .ok v := by
  simp only [Search, hu, hd, hs, ne_eq, not_true_eq_false, if_false]
  cases Decode resp.Body resp.BodyErr <;> rfl

theorem main_of_run_error (rt : Runtime) (err : GoString) (eff : Effects)
    (h : run rt = .returned (some err) eff) :
    main rt = { exitCode := 1, stderr := str "Error: " ++ err ++ [10], eff := eff } := by
  simp only [main, h]

theorem main_of_run_ok (rt : Runtime) (eff : Effects) (h : run rt = .returned none eff) :
    main rt = { exitCode := 0, stderr := [], eff := eff } := by
  simp only [main, h]

theorem run_of_search_error (rt : Runtime) (cfg : config) (query err : GoString)
    (hf : parseFlags rt = .returned cfg none) (hr : readQuery rt = .ok query)
    (hs : (Search rt (NewClient cfg.instanceURL [WithTimeout cfg.timeout]) query).2 = .error err) :
    run rt = .returned (some (str "search failed: " ++ err))
      { stdinRead := true, clients := [NewClient cfg.instanceURL [WithTimeout cfg.timeout]],
        requests := (Search rt (NewClient cfg.instanceURL [WithTimeout cfg.timeout]) query).1,
        stdout := [] } := by
  simp only [run, hf, hr, hs]

/-- C2: when the response has a status code other than 200, `Search` returns no result and
the error `unexpected status code <code>: <body>`, where `<code>` is the status code in
decimal (a minus sign if it is negative, then decimal digits, without a leading zero
unless the only digit is `0`, that denote its absolute value) and `<body>` is all the
bytes of the body, whatever they are; `run` returns it
wrapped as `search failed: ...`, and the process prints it after `Error: ` and exits with
status 1. -/
theorem C2_non_200_status (rt : Runtime) (cfg : config) (query : GoString) (u : URL)
    (resp : Response)
    (hf : parseFlags rt = .returned cfg none) (hr : readQuery rt = .ok query)
    (hu : rt.parseRequestURL (cfg.instanceURL ++ str "/search") = .ok u)
    (hd : rt.Do cfg.timeout (searchRequest u query) = .ok resp)
    (hs : resp.StatusCode ≠ 200) :
    ∃ digits : GoString,
      digits ≠ [] ∧ (∀ b ∈ digits, isDigit b = true)
      ∧ (digits = [48] ∨ digits.head? ≠ some 48)
      ∧ decimalValue digits = resp.StatusCode.natAbs
      ∧ (Search rt (NewClient cfg.instanceURL [WithTimeout cfg.timeout]) query).2
        = .error (str "unexpected status code "
            ++ ((if resp.StatusCode < 0 then [45] else []) ++ digits) ++ str ": " ++ resp.Body)
      ∧ run rt = .returned
          (some (str "search failed: " ++ (str "unexpected status code "
            ++ ((if resp.StatusCode < 0 then [45] else []) ++ digits) ++ str ": " ++ resp.Body)))
          { stdinRead := true, clients := [NewClient cfg.instanceURL [WithTimeout cfg.timeout]],
            requests := [searchRequest u query], stdout := [] }
      ∧ (main rt).exitCode = 1
      ∧ (main rt).stderr = str "Error: " ++ (str "search failed: "
          ++ (str "unexpected status code "
            ++ ((if resp.StatusCode < 0 then [45] else []) ++ digits) ++ str ": " ++ resp.Body))
          ++ [10] := by
  obtain ⟨digits, hI, h1, h2, hz, h3⟩ := Itoa_spec resp.StatusCode
  have hS := Search_non_200 rt (NewClient cfg.instanceURL [WithTimeout cfg.timeout]) query u resp
    hu hd hs
  have hR := run_of_search_error rt cfg query _ hf hr hS
  rw [Search_requests rt (NewClient cfg.instanceURL [WithTimeout cfg.timeout]) query u hu] at hR
  have hM := main_of_run_error rt _ _ hR
  rw [hI] at hS hR hM
  exact ⟨digits, h1, h2, hz, h3, hS, hR, by rw [hM], by rw [hM]⟩

theorem C2_non_200_status_witness :
    ∃ digits : GoString,
      digits ≠ [] ∧ (∀ b ∈ digits, isDigit b = true)
      ∧ (digits = [48] ∨ digits.head? ≠ some 48)
      ∧ decimalValue digits = (500 : Int).natAbs
      ∧ (Search (exampleRuntime [] (str "cats\n") 500 (str "oops"))
          (NewClient defaultInstanceURL [WithTimeout defaultTimeout]) (str "cats")).2
        = .error (str "unexpected status code "
            ++ ((if (500 : Int) < 0 then [45] else []) ++ digits) ++ str ": " ++ str "oops")
      ∧ run (exampleRuntime [] (str "cats\n") 500 (str "oops")) = .returned
          (some (str "search failed: " ++ (str "unexpected status code "
            ++ ((if (500 : Int) < 0 then [45] else []) ++ digits) ++ str ": " ++ str "oops")))
          { stdinRead := true, clients := [NewClient defaultInstanceURL [WithTimeout defaultTimeout]],
            requests := [searchRequest localhostSearchURL (str "cats")], stdout := [] }
      ∧ (main (exampleRuntime [] (str "cats\n") 500 (str "oops"))).exitCode = 1
      ∧ (main (exampleRuntime [] (str "cats\n") 500 (str "oops"))).stderr
          = str "Error: " ++ (str "search failed: "
            ++ (str "unexpected status code "
              ++ ((if (500 : Int) < 0 then [45] else []) ++ digits) ++ str ": " ++ str "oops"))
            ++ [10] :=
  C2_non_200_status (exampleRuntime [] (str "cats\n") 500 (str "oops"))
    { instanceURL := defaultInstanceURL, format := str "json", timeout := defaultTimeout }
    (str "cats") localhostSearchURL { StatusCode := 500, Body := str "oops", BodyErr := none }
    (by decide) (by decide) (by decide) (by rfl) (by decide)

/-- The run of C2's witness written out: for the status 500 and the body `oops` the process
prints `Error: search failed: unexpected status code 500: oops` and exits with status 1. -/
theorem main_status_500 :
    (main (exampleRuntime [] (str "cats\n") 500 (str "oops"))).stderr
        = str "Error: search failed: unexpected status code 500: oops\n"
      ∧ (main (exampleRuntime [] (str "cats\n") 500 (str "oops"))).exitCode = 1 := by
  decide

theorem parseFlags_of_parsed (rt : Runtime) (cfg : config) (hp : flagParse rt = .parsed cfg) :
    parseFlags rt
      = if cfg.format ≠ str "json" ∧ cfg.format ≠ str "text" then
          .returned cfg (some (str "invalid format: " ++ cfg.format
            ++ str " (must be 'json' or 'text')"))
        else .returned cfg none := by
  simp only [parseFlags, hp]

theorem parseFlags_of_help (rt : Runtime) (hp : flagParse rt = .help) :
    parseFlags rt = .exit 0 (flagUsage rt.progName) := by
  simp only [parseFlags, hp]

theorem parseFlags_of_failed (rt : Runtime) (msg : GoString) (hp : flagParse rt = .failed msg) :
    parseFlags rt = .exit 2 (msg ++ [10] ++ flagUsage rt.progName) := by
  simp only [parseFlags, hp]

/-- When `parseFlags` returns without an error the format is `json` or `text`. -/
theorem parseFlags_format (rt : Runtime) (cfg : config)
    (hf : parseFlags rt = .returned cfg none) :
    cfg.format = str "json" ∨ cfg.format = str "text" := by
  cases hp : flagParse rt with
  | help => rw [parseFlags_of_help rt hp] at hf; cases hf
  | failed msg => rw [parseFlags_of_failed rt msg hp] at hf; cases hf
  | parsed cfg2 =>
    rw [parseFlags_of_parsed rt cfg2 hp] at hf
    split at hf
    · cases hf
    · rename_i hn
      simp only [ParseFlags.returned.injEq, and_true] at hf
      subst hf
      by_cases h1 : cfg2.format = str "json"
      · exact Or.inl h1
      · by_cases h2 : cfg2.format = str "text"
        · exact Or.inr h2
        · exact absurd ⟨h1, h2⟩ hn

theorem outputResults_ok (results : SearchResponse) (format : GoString)
    (h : format = str "json" ∨ format = str "text") : (outputResults results format).2 = none := by
  rcases h with h | h
  · simp [outputResults, h, outputJSON]
  · have : ¬ (str "text" = str "json") := by decide
    simp [outputResults, h, this, outputText]

/-- Every message of a failed `parseOne` begins with `b` (bad flag syntax), `f` (flag
provided but not defined, flag needs an argument) or `i` (invalid value). -/
theorem parseOne_failHead (rt : Runtime) (cfg : config) (args : List GoString) :
    failHead (parseOne rt cfg args) = true := by
  have hb : ∀ t : GoString, failHead (.failed (str "bad flag syntax: " ++ t)) = true :=
    fun _ => rfl
  have hf1 : ∀ t : GoString,
      failHead (.failed (str "flag provided but not defined: -" ++ t)) = true := fun _ => rfl
  have hf2 : ∀ t : GoString,
      failHead (.failed (str "flag needs an argument: -" ++ t)) = true := fun _ => rfl
  have hi : ∀ a b c d : GoString,
      failHead (.failed (str "invalid value " ++ a ++ b ++ c ++ d ++ str "parse error")) = true :=
    fun _ _ _ _ => rfl
  have hs : ∀ c a, failHead (.seen c a) = true := fun _ _ => rfl
  have hd : failHead .done = true := rfl
  have hh : failHead .help = true := rfl
  unfold parseOne
  cases args with
  | nil => rfl
  | cons s rest =>
    dsimp only
    cases rt.ParseDuration _ <;>
      simp only [apply_ite failHead, hb, hf1, hf2, hi, hs, hd, hh, ite_self]

theorem flagParseLoop_failed_head (rt : Runtime) (fuel : Nat) (cfg : config)
    (args : List GoString) (msg : GoString)
    (h : flagParseLoop rt fuel cfg args = .failed msg) : msg.head? ≠ some 69 := by
  induction fuel generalizing cfg args with
  | zero => simp [flagParseLoop] at h
  | succ n ih =>
    simp only [flagParseLoop] at h
    split at h
    · exact ih _ _ h
    · cases h
    · cases h
    · rename_i m hm
      simp only [FlagParse.failed.injEq] at h
      subst h
      have := parseOne_failHead rt cfg args
      rw [hm] at this
      simp only [failHead, decide_eq_true_eq] at this
      rcases this with e | e | e <;> rw [e] <;> decide

theorem not_error_line (s : GoString) (h : s.head? ≠ some 69) : s.take 7 ≠ str "Error: " := by
  intro e
  cases s with
  | nil => revert e; decide
  | cons b t =>
    have : (b :: t).head? = (str "Error: ").head? := by rw [← e]; rfl
    simp only [List.head?_cons] at this h
    rw [this] at h
    exact h (by decide)

theorem flagUsage_head (progName : GoString) : (flagUsage progName).head? ≠ some 69 := by
  have : (flagUsage progName).head? = some 85 := rfl
  rw [this]
  decide

theorem flagParse_help (rt : Runtime) (rest : List GoString)
    (h : rt.args = str "-h" :: rest ∨ rt.args = str "-help" :: rest
      ∨ rt.args = str "--h" :: rest ∨ rt.args = str "--help" :: rest) :
    flagParse rt = .help := by
  unfold flagParse
  rcases h with h | h | h | h <;> rw [h] <;> rfl

theorem flagParse_undefined (rt : Runtime) (name : GoString) (rest : List GoString)
    (h : rt.args = (45 :: name) :: rest) (h0 : name ≠ []) (h1 : name.head? ≠ some 45)
    (h2 : name.head? ≠ some 61) (h3 : (61 : Byte) ∉ name)
    (h4 : name ≠ str "url" ∧ name ≠ str "format" ∧ name ≠ str "timeout")
    (h5 : ¬ (name = str "help" ∨ name = str "h")) :
    flagParse rt = .failed (str "flag provided but not defined: -" ++ name) := by
  cases name with
  | nil => exact absurd rfl h0
  | cons n0 nt =>
    have hn0 : n0 ≠ 45 := fun e => h1 (by rw [e]; rfl)
    have hc : Cut nt 61 = (nt, [], false) :=
      Cut_not_mem nt 61 (fun hm => h3 (List.mem_cons_of_mem _ hm))
    have a1 : ¬ ((45 :: n0 :: nt).length < 2 ∨ (45 :: n0 :: nt).head? ≠ some 45) := by
      simp
    have a2 : (if (45 :: n0 :: nt).getD 1 0 = 45 then 2 else 1) = 1 := by
      simp [hn0]
    have a3 : ¬ ((n0 :: nt).length = 0 ∨ (n0 :: nt).head? = some 45
        ∨ (n0 :: nt).head? = some 61) := by
      simp only [List.length_cons, Nat.add_one_ne_zero, false_or, not_or]
      exact ⟨h1, h2⟩
    have hp : parseOne rt
        { instanceURL := defaultInstanceURL, format := str "json", timeout := defaultTimeout }
        ((45 :: n0 :: nt) :: rest)
        = .failed (str "flag provided but not defined: -" ++ (n0 :: nt)) := by
      unfold parseOne
      simp only [a1, a2, if_false, List.drop_succ_cons, List.drop_zero, a3, List.tail_cons, hc,
        List.take_succ_cons, List.take_zero, List.singleton_append, h5, and_self, if_true,
        OfNat.one_ne_ofNat, false_and]
      rw [if_pos h4]
    unfold flagParse
    rw [h]
    simp only [List.length_cons, flagParseLoop, hp]

/-- C3: when the command line parses and the value of `-format` is neither `json` nor `text`,
`parseFlags` returns an error and `run` returns it wrapped as `failed to parse flags: ...`
without having read standard input, built a client or issued a request; when the value is
`json` or `text`, `parseFlags` returns no error. -/
theorem C3_format_validation (rt : Runtime) (cfg : config) (hp : flagParse rt = .parsed cfg) :
    (cfg.format ≠ str "json" → cfg.format ≠ str "text" →
        parseFlags rt = .returned cfg (some (str "invalid format: " ++ cfg.format
          ++ str " (must be 'json' or 'text')"))
        ∧ run rt = .returned
            (some (str "failed to parse flags: " ++ (str "invalid format: " ++ cfg.format
              ++ str " (must be 'json' or 'text')")))
            { stdinRead := false, clients := [], requests := [], stdout := [] })
      ∧ (cfg.format = str "json" ∨ cfg.format = str "text" → parseFlags rt = .returned cfg none) := by
  have h := parseFlags_of_parsed rt cfg hp
  constructor
  · intro h1 h2
    rw [if_pos ⟨h1, h2⟩] at h
    exact ⟨h, by simp only [run, h]⟩
  · intro h3
    rw [if_neg (by rcases h3 with h3 | h3 <;> simp [h3])] at h
    exact h

theorem C3_format_validation_witness :
    (str "xml" ≠ str "json" → str "xml" ≠ str "text" →
        parseFlags (exampleRuntime [str "-format", str "xml"] (str "cats\n") 200 (str "\x7b\x7d"))
          = .returned
            { instanceURL := defaultInstanceURL, format := str "xml", timeout := defaultTimeout }
            (some (str "invalid format: " ++ str "xml" ++ str " (must be 'json' or 'text')"))
        ∧ run (exampleRuntime [str "-format", str "xml"] (str "cats\n") 200 (str "\x7b\x7d"))
          = .returned
            (some (str "failed to parse flags: " ++ (str "invalid format: " ++ str "xml"
              ++ str " (must be 'json' or 'text')")))
            { stdinRead := false, clients := [], requests := [], stdout := [] })
      ∧ (str "xml" = str "json" ∨ str "xml" = str "text" →
          parseFlags (exampleRuntime [str "-format", str "xml"] (str "cats\n") 200 (str "\x7b\x7d"))
            = .returned
              { instanceURL := defaultInstanceURL, format := str "xml", timeout := defaultTimeout }
              none) :=
  C3_format_validation (exampleRuntime [str "-format", str "xml"] (str "cats\n") 200 (str "\x7b\x7d"))
    { instanceURL := defaultInstanceURL, format := str "xml", timeout := defaultTimeout }
    (by decide)

/-- C7, as amended: when the command line does not parse, package flag ends the process
itself: after `-h` or `-help` it prints the usage and the status is 0; after a failure it
prints its message, a new line and the usage and the status is 2, not 1 (so for an
undefined flag `-name`, with the message `flag provided but not defined: -name`); in both
cases standard error does not begin with `Error: `. Otherwise, when a later stage fails
(the format check, reading the query, the search with its request, status check and
decoding), the process writes `Error: <message>` and a new line to standard error and
exits with status 1; when none fails it exits with status 0 and writes nothing to standard
error. Printing the result never fails. -/
theorem C7_exit_status (rt : Runtime) :
    (flagParse rt = .help →
        main rt = { exitCode := 0, stderr := flagUsage rt.progName,
                    eff := { stdinRead := false, clients := [], requests := [], stdout := [] } }
          ∧ (flagUsage rt.progName).take 7 ≠ str "Error: ")
      ∧ (∀ msg, flagParse rt = .failed msg →
          main rt = { exitCode := 2, stderr := msg ++ [10] ++ flagUsage rt.progName,
                      eff := { stdinRead := false, clients := [], requests := [], stdout := [] } }
            ∧ (msg ++ [10] ++ flagUsage rt.progName).take 7 ≠ str "Error: ")
      ∧ (∀ rest, rt.args = str "-h" :: rest ∨ rt.args = str "-help" :: rest
            ∨ rt.args = str "--h" :: rest ∨ rt.args = str "--help" :: rest →
          flagParse rt = .help)
      ∧ (∀ name rest, rt.args = (45 :: name) :: rest → name ≠ [] → name.head? ≠ some 45 →
          name.head? ≠ some 61 → (61 : Byte) ∉ name →
          name ≠ str "url" ∧ name ≠ str "format" ∧ name ≠ str "timeout" →
          ¬ (name = str "help" ∨ name = str "h") →
          flagParse rt = .failed (str "flag provided but not defined: -" ++ name))
      ∧ (∀ cfg err, parseFlags rt = .returned cfg (some err) →
          (main rt).exitCode = 1
            ∧ (main rt).stderr = str "Error: " ++ (str "failed to parse flags: " ++ err) ++ [10])
      ∧ (∀ cfg err, parseFlags rt = .returned cfg none → readQuery rt = .error err →
          (main rt).exitCode = 1 ∧ (main rt).stderr = str "Error: " ++ err ++ [10])
      ∧ (∀ cfg query err, parseFlags rt = .returned cfg none → readQuery rt = .ok query →
          (Search rt (NewClient cfg.instanceURL [WithTimeout cfg.timeout]) query).2 = .error err →
          (main rt).exitCode = 1
            ∧ (main rt).stderr = str "Error: " ++ (str "search failed: " ++ err) ++ [10])
      ∧ (∀ cfg query results, parseFlags rt = .returned cfg none → readQuery rt = .ok query →
          (Search rt (NewClient cfg.instanceURL [WithTimeout cfg.timeout]) query).2 = .ok results →
          (main rt).exitCode = 0 ∧ (main rt).stderr = []) := by
  refine ⟨?_, ?_, ?_, ?_, ?_, ?_, ?_, ?_⟩
  · intro h
    have hf := parseFlags_of_help rt h
    have hr : run rt = .exit 0 (flagUsage rt.progName) := by simp only [run, hf]
    exact ⟨by simp only [main, hr], not_error_line _ (flagUsage_head _)⟩
  · intro msg h
    have hf := parseFlags_of_failed rt msg h
    have hr : run rt = .exit 2 (msg ++ [10] ++ flagUsage rt.progName) := by simp only [run, hf]
    refine ⟨by simp only [main, hr], not_error_line _ ?_⟩
    have hm := flagParseLoop_failed_head rt _ _ _ msg h
    cases msg with
    | nil => simp
    | cons b t => simpa using hm
  · exact fun rest h => flagParse_help rt rest h
  · exact fun name rest h h0 h1 h2 h3 h4 h5 => flagParse_undefined rt name rest h h0 h1 h2 h3 h4 h5
  · intro cfg err hf
    have hr : run rt = .returned (some (str "failed to parse flags: " ++ err))
        { stdinRead := false, clients := [], requests := [], stdout := [] } := by
      simp only [run, hf]
    rw [main_of_run_error rt _ _ hr]
    exact ⟨rfl, rfl⟩
  · intro cfg err hf hq
    have hr : run rt = .returned (some err)
        { stdinRead := true, clients := [], requests := [], stdout := [] } := by
      simp only [run, hf, hq]
    rw [main_of_run_error rt _ _ hr]
    exact ⟨rfl, rfl⟩
  · intro cfg query err hf hq hs
    rw [main_of_run_error rt _ _ (run_of_search_error rt cfg query err hf hq hs)]
    exact ⟨rfl, rfl⟩
  · intro cfg query results hf hq hs
    have ho := outputResults_ok results cfg.format (parseFlags_format rt cfg hf)
    have hr : run rt = .returned none
        { stdinRead := true, clients := [NewClient cfg.instanceURL [WithTimeout cfg.timeout]],
          requests := (Search rt (NewClient cfg.instanceURL [WithTimeout cfg.timeout]) query).1,
          stdout := (outputResults results cfg.format).1 } := by
      simp only [run, hf, hq, hs, ho]
    rw [main_of_run_ok rt _ hr]
    exact ⟨rfl, rfl⟩

/-- C7 at work: `-h` ends the process with status 0 and the usage on standard error; an
undefined flag ends it with status 2 and `flag provided but not defined` before the usage;
a wrong format with status 1 and an `Error:` line; a good run with status 0. -/
theorem C7_exit_status_witness :
    main (exampleRuntime [str "-h"] (str "cats\n") 200 (str "\x7b\x7d"))
        = { exitCode := 0, stderr := flagUsage (str "seax"),
            eff := { stdinRead := false, clients := [], requests := [], stdout := [] } }
      ∧ main (exampleRuntime [str "-bogus"] (str "cats\n") 200 (str "\x7b\x7d"))
        = { exitCode := 2,
            stderr := str "flag provided but not defined: -bogus" ++ [10] ++ flagUsage (str "seax"),
            eff := { stdinRead := false, clients := [], requests := [], stdout := [] } }
      ∧ (main (exampleRuntime [str "-format", str "xml"] (str "cats\n") 200
            (str "\x7b\x7d"))).exitCode = 1
      ∧ (main (exampleRuntime [] (str "cats\n") 200 (str "\x7b\x7d"))).exitCode = 0 :=
  ⟨((C7_exit_status (exampleRuntime [str "-h"] (str "cats\n") 200 (str "\x7b\x7d"))).1
      (by decide)).1,
   ((C7_exit_status (exampleRuntime [str "-bogus"] (str "cats\n") 200 (str "\x7b\x7d"))).2.1
      (str "flag provided but not defined: -bogus") (by decide)).1,
   ((C7_exit_status (exampleRuntime [str "-format", str "xml"] (str "cats\n") 200
      (str "\x7b\x7d"))).2.2.2.2.1
      { instanceURL := defaultInstanceURL, format := str "xml", timeout := defaultTimeout }
      (str "invalid format: xml (must be 'json' or 'text')") (by decide)).1,
   ((C7_exit_status (exampleRuntime [] (str "cats\n") 200 (str "\x7b\x7d"))).2.2.2.2.2.2.2
      { instanceURL := defaultInstanceURL, format := str "json", timeout := defaultTimeout }
      (str "cats") { Results := none } (by decide) (by decide) (by decide)).1⟩

/-- C7 as stated fails: with the command line `-bogus` flag parsing fails and the process
exits with status 2, not 1, and standard error begins with the message of package flag,
not with `Error: `. -/
theorem C7_counterexample :
    (main (exampleRuntime [str "-bogus"] (str "cats\n") 200 (str "\x7b\x7d"))).exitCode = 2
      ∧ (main (exampleRuntime [str "-bogus"] (str "cats\n") 200 (str "\x7b\x7d"))).stderr
          = str "flag provided but not defined: -bogus\nUsage of seax:\n"
            ++ str "  -format string\n    \tOutput format (json or text) (default \"json\")\n"
            ++ str "  -timeout duration\n    \tSearch timeout duration (default 10s)\n"
            ++ str "  -url string\n    \tSearXNG instance URL (default \"http://localhost:4000\")\n" := by
  decide!

/-! ## Facts about decoding -/

/-- A value whose first byte is neither an opening brace nor `n` does not scan as an object
or as `null`. -/
theorem parseValue_first (fuel depth : Nat) (s rest r : GoString) (b : Byte) (v : JSON)
    (hs : skipSpace s = b :: rest) (h1 : b ≠ 123) (h2 : b ≠ 110)
    (hv : parseValue fuel depth s = .ok (v, r)) :
    (∀ kvs, v ≠ .obj kvs) ∧ v ≠ .null := by
  cases fuel with
  | zero => simp [parseValue] at hv
  | succ n =>
    simp only [parseValue, hs, h1, h2, if_false] at hv
    repeat' split at hv
    all_goals (cases hv <;> exact ⟨fun _ h => (by cases h), fun h => (by cases h)⟩)

theorem Decode_first (input : GoString) (inputErr : Option GoString)
    (h : ∀ b rest, skipSpace input = b :: rest → b ≠ 123 ∧ b ≠ 110) :
    ∃ e, Decode input inputErr = .error e := by
  unfold Decode
  cases hp : parseValue (2 * input.length + 2) 0 input with
  | error e =>
    cases e with
    | invalid => exact ⟨_, rfl⟩
    | short =>
      cases inputErr with
      | some e => exact ⟨_, rfl⟩
      | none =>
        simp only
        split
        · exact ⟨_, rfl⟩
        · exact ⟨_, rfl⟩
  | ok p =>
    obtain ⟨v, r⟩ := p
    simp only
    split
    · exact ⟨_, rfl⟩
    · cases hs : skipSpace input with
      | nil => simp [parseValue, hs] at hp
      | cons b rest =>
        obtain ⟨h1, h2⟩ := h b rest hs
        obtain ⟨ho, hn⟩ := parseValue_first _ _ _ _ _ _ _ hs h1 h2 hp
        cases v with
        | obj kvs => exact absurd rfl (ho kvs)
        | null => exact absurd rfl hn
        | bool _ => exact ⟨_, rfl⟩
        | num _ => exact ⟨_, rfl⟩
        | string _ => exact ⟨_, rfl⟩
        | arr _ => exact ⟨_, rfl⟩

/-- The first JSON value of the body does not have the shape: decoding is a type error;
it has the shape: decoding gives a result. -/
theorem decodeString_shape (cur : GoString) (v : JSON) :
    (stringOrNull v = true → ∃ t, decodeString cur v = .ok t)
      ∧ (stringOrNull v = false → decodeString cur v = .error .mismatch) := by
  cases v <;> simp [stringOrNull, decodeString]

theorem decodeResultMembers_shape (kvs : List (GoString × JSON)) :
    ∀ cur : SearchResult,
      (resultShape (.obj kvs) = true → ∃ r, decodeResultMembers kvs cur = .ok r)
        ∧ (resultShape (.obj kvs) = false → decodeResultMembers kvs cur = .error .mismatch) := by
  induction kvs with
  | nil => intro cur; simp [resultShape, decodeResultMembers]
  | cons kv kvs ih =>
    intro cur
    obtain ⟨k, v⟩ := kv
    have hs : resultShape (.obj ((k, v) :: kvs))
        = ((if keyMatches k (str "title") ∨ keyMatches k (str "url")
              ∨ keyMatches k (str "description") then stringOrNull v else true)
            && resultShape (.obj kvs)) := by
      simp [resultShape]
    rw [hs]
    unfold decodeResultMembers
    by_cases h1 : keyMatches k (str "title") = true
    · simp only [h1, true_or, if_true, Bool.and_eq_true, Bool.and_eq_false_iff]
      cases hv : stringOrNull v
      · rw [(decodeString_shape cur.Title v).2 hv]; simp
      · obtain ⟨t, ht⟩ := (decodeString_shape cur.Title v).1 hv
        rw [ht]
        simpa using ih { cur with Title := t }
    · by_cases h2 : keyMatches k (str "url") = true
      · simp only [h1, h2, true_or, or_true, if_true, Bool.and_eq_true, Bool.and_eq_false_iff,
          Bool.false_eq_true, if_false]
        cases hv : stringOrNull v
        · rw [(decodeString_shape cur.URL v).2 hv]; simp
        · obtain ⟨t, ht⟩ := (decodeString_shape cur.URL v).1 hv
          rw [ht]
          simpa using ih { cur with URL := t }
      · by_cases h3 : keyMatches k (str "description") = true
        · simp only [h1, h2, h3, or_true, if_true, Bool.and_eq_true, Bool.and_eq_false_iff,
            Bool.false_eq_true, if_false]
          cases hv : stringOrNull v
          · rw [(decodeString_shape cur.Description v).2 hv]; simp
          · obtain ⟨t, ht⟩ := (decodeString_shape cur.Description v).1 hv
            rw [ht]
            simpa using ih { cur with Description := t }
        · simp only [h1, h2, h3, or_self, if_false, Bool.true_and, Bool.false_eq_true]
          exact ih cur

theorem decodeResult_shape (cur : SearchResult) (v : JSON) :
    (resultShape v = true → ∃ r, decodeResult cur v = .ok r)
      ∧ (resultShape v = false → decodeResult cur v = .error .mismatch) := by
  cases v with
  | obj kvs => exact decodeResultMembers_shape kvs cur
  | null => simp [resultShape, decodeResult]
  | bool _ => simp [resultShape, decodeResult]
  | num _ => simp [resultShape, decodeResult]
  | string _ => simp [resultShape, decodeResult]
  | arr _ => simp [resultShape, decodeResult]

theorem decodeElems_shape (xs : List JSON) :
    ∀ old : List SearchResult,
      (xs.all resultShape = true → ∃ rs, decodeElems xs old = .ok rs)
        ∧ (xs.all resultShape = false → decodeElems xs old = .error .mismatch) := by
  induction xs with
  | nil => intro old; simp [decodeElems]
  | cons x xs ih =>
    intro old
    simp only [List.all_cons, Bool.and_eq_true, Bool.and_eq_false_iff]
    unfold decodeElems
    cases hx : resultShape x
    · rw [(decodeResult_shape _ x).2 hx]; simp
    · obtain ⟨r, hr⟩ := (decodeResult_shape
        (old.headD { Title := [], URL := [], Description := [] }) x).1 hx
      rw [hr]
      cases hxs : xs.all resultShape
      · rw [(ih old.tail).2 hxs]; simp
      · obtain ⟨rs, hrs⟩ := (ih old.tail).1 hxs
        rw [hrs]; simp

theorem decodeResults_shape (cur : Option (List SearchResult)) (v : JSON) :
    (resultsShape v = true → ∃ r, decodeResults cur v = .ok r)
      ∧ (resultsShape v = false → decodeResults cur v = .error .mismatch) := by
  cases v with
  | arr xs =>
    simp only [resultsShape, decodeResults]
    cases hxs : xs.all resultShape
    · rw [(decodeElems_shape xs _).2 hxs]; simp
    · obtain ⟨rs, hrs⟩ := (decodeElems_shape xs (cur.getD [])).1 hxs
      rw [hrs]; simp
  | null => simp [resultsShape, decodeResults]
  | bool _ => simp [resultsShape, decodeResults]
  | num _ => simp [resultsShape, decodeResults]
  | string _ => simp [resultsShape, decodeResults]
  | obj _ => simp [resultsShape, decodeResults]

theorem decodeResponseMembers_shape (kvs : List (GoString × JSON)) :
    ∀ cur : SearchResponse,
      (responseShape (.obj kvs) = true → ∃ r, decodeResponseMembers kvs cur = .ok r)
        ∧ (responseShape (.obj kvs) = false
            → decodeResponseMembers kvs cur = .error .mismatch) := by
  induction kvs with
  | nil => intro cur; simp [responseShape, decodeResponseMembers]
  | cons kv kvs ih =>
    intro cur
    obtain ⟨k, v⟩ := kv
    have hs : responseShape (.obj ((k, v) :: kvs))
        = ((if keyMatches k (str "results") then resultsShape v else true)
            && responseShape (.obj kvs)) := by
      simp [responseShape]
    rw [hs]
    unfold decodeResponseMembers
    by_cases h1 : keyMatches k (str "results") = true
    · simp only [h1, if_true, Bool.and_eq_true, Bool.and_eq_false_iff]
      cases hv : resultsShape v
      · rw [(decodeResults_shape cur.Results v).2 hv]; simp
      · obtain ⟨t, ht⟩ := (decodeResults_shape cur.Results v).1 hv
        rw [ht]
        simpa using ih { cur with Results := t }
    · simp only [h1, if_false, Bool.true_and, Bool.false_eq_true]
      exact ih cur

theorem unmarshal_shape (cur : SearchResponse) (v : JSON) :
    (responseShape v = true → ∃ r, unmarshal cur v = .ok r)
      ∧ (responseShape v = false → unmarshal cur v = .error .mismatch) := by
  cases v with
  | obj kvs => exact decodeResponseMembers_shape kvs cur
  | null => simp [responseShape, unmarshal]
  | bool _ => simp [responseShape, unmarshal]
  | num _ => simp [responseShape, unmarshal]
  | string _ => simp [responseShape, unmarshal]
  | arr _ => simp [responseShape, unmarshal]

/-- `Decode` succeeds exactly on the accepted bodies. -/
theorem Decode_accepted (body : GoString) (bodyErr : Option GoString) :
    (bodyAccepted body bodyErr = true → ∃ r, Decode body bodyErr = .ok r)
      ∧ (bodyAccepted body bodyErr = false → ∃ e, Decode body bodyErr = .error e) := by
  unfold bodyAccepted Decode
  cases hp : parseValue (2 * body.length + 2) 0 body with
  | error e =>
    refine ⟨fun h => by simp at h, fun _ => ?_⟩
    cases e with
    | invalid => exact ⟨_, rfl⟩
    | short =>
      cases bodyErr with
      | some e => exact ⟨_, rfl⟩
      | none =>
        simp only
        split
        · exact ⟨_, rfl⟩
        · exact ⟨_, rfl⟩
  | ok p =>
    obtain ⟨v, rest⟩ := p
    simp only
    by_cases hc : rest = [] ∧ (!v.isComposite) = true ∧ bodyErr.isSome = true
    · rw [if_pos hc]
      refine ⟨fun h => ?_, fun _ => ⟨_, rfl⟩⟩
      obtain ⟨h1, h2, h3⟩ := hc
      cases hb : bodyErr with
      | none => rw [hb] at h3; simp at h3
      | some e =>
        rw [hb] at h
        simp only [Bool.not_eq_true'] at h2
        simp [h1, h2] at h
    · rw [if_neg hc]
      constructor
      · intro h
        simp only [Bool.and_eq_true] at h
        exact (unmarshal_shape _ v).1 h.1
      · intro h
        cases hsv : responseShape v
        · exact ⟨_, (unmarshal_shape _ v).2 hsv⟩
        · exfalso
          rw [hsv] at h
          simp only [Bool.true_and, Bool.or_eq_false_iff, decide_eq_false_iff_not, not_not] at h
          apply hc
          obtain ⟨⟨h1, h2⟩, h3⟩ := h
          refine ⟨h2, by simp [h1], ?_⟩
          cases bodyErr with
          | none => simp at h3
          | some _ => rfl

/-- Bodies that are accepted, and bodies that are not. -/
theorem bodyAccepted_examples :
    bodyAccepted (str "\x7b\x7d") none = true
      ∧ bodyAccepted (str "null") none = true
      ∧ bodyAccepted (str "\x7b\"results\":[]\x7d trailing bytes") none = true
      ∧ bodyAccepted (str " \x7b\"Results\":[\x7b\"title\":null,\"rank\":3\x7d,null],\"n\":[1]\x7d")
          none = true
      ∧ bodyAccepted (str "\x7b\"results\":5\x7d") none = false
      ∧ bodyAccepted (str "\x7b\"results\":[\x7b\"title\":5\x7d]\x7d") none = false
      ∧ bodyAccepted (str "\x7b\"results\":[7]\x7d") none = false
      ∧ bodyAccepted (str "\x7b\"results\":\x7b\x7d\x7d") none = false
      ∧ bodyAccepted (str "\x7b\"results\":[\x7b\"url\":\"u\"") none = false
      ∧ bodyAccepted (str "\x7b\"results\":[],\x7d") none = false
      ∧ bodyAccepted (str "[]") none = false
      ∧ bodyAccepted (str "\"results\"") none = false
      ∧ bodyAccepted (str "") none = false
      ∧ bodyAccepted (str "<html>") none = false := by
  decide

/-- C8, as amended: for a response with status 200, when the body does not start (after
white space) with a complete JSON value of the SearchResponse shape (`bodyAccepted`: the
value is `null` or an object whose members named `results` are `null` or arrays of
elements that are `null` or objects whose members named `title`, `url`, `description` are
strings or `null`), `Search` returns no result and an error that begins
`failed to decode response: `; that is so in particular when the first byte after white
space is neither an opening brace nor `n`. When the body does start with such a value,
`Search` returns a result: bytes after the value are not examined, and absent members and
members with other names are accepted. -/
theorem C8_decode_failure (rt : Runtime) (c : Client) (query : GoString) (u : URL)
    (resp : Response)
    (hu : rt.parseRequestURL (c.baseURL ++ str "/search") = .ok u)
    (hd : rt.Do c.Timeout (searchRequest u query) = .ok resp)
    (hs : resp.StatusCode = 200) :
    (bodyAccepted resp.Body resp.BodyErr = false →
        ∃ e, (Search rt c query).2
          = .error (str "failed to decode response: " ++ rt.decodeErrorText e))
      ∧ (bodyAccepted resp.Body resp.BodyErr = true → ∃ r, (Search rt c query).2 = .ok r)
      ∧ ((∀ b rest, skipSpace resp.Body = b :: rest → b ≠ 123 ∧ b ≠ 110) →
          ∃ e, (Search rt c query).2
            = .error (str "failed to decode response: " ++ rt.decodeErrorText e)) := by
  have h := Search_200 rt c query u resp hu hd hs
  refine ⟨fun ha => ?_, fun ha => ?_, fun hb => ?_⟩
  · obtain ⟨e, he⟩ := (Decode_accepted resp.Body resp.BodyErr).2 ha
    exact ⟨e, by rw [h, he]⟩
  · obtain ⟨r, hr⟩ := (Decode_accepted resp.Body resp.BodyErr).1 ha
    exact ⟨r, by rw [h, hr]⟩
  · obtain ⟨e, he⟩ := Decode_first resp.Body resp.BodyErr hb
    exact ⟨e, by rw [h, he]⟩

theorem C8_decode_failure_witness :
    (bodyAccepted (str "\x7b\"results\":5\x7d") none = false →
        ∃ e, (Search (exampleRuntime [] [] 200 (str "\x7b\"results\":5\x7d"))
            (NewClient defaultInstanceURL []) (str "cats")).2
          = .error (str "failed to decode response: "
              ++ (exampleRuntime [] [] 200 (str "\x7b\"results\":5\x7d")).decodeErrorText e))
      ∧ (bodyAccepted (str "\x7b\"results\":5\x7d") none = true →
          ∃ r, (Search (exampleRuntime [] [] 200 (str "\x7b\"results\":5\x7d"))
            (NewClient defaultInstanceURL []) (str "cats")).2 = .ok r)
      ∧ ((∀ b rest, skipSpace (str "\x7b\"results\":5\x7d") = b :: rest → b ≠ 123 ∧ b ≠ 110) →
          ∃ e, (Search (exampleRuntime [] [] 200 (str "\x7b\"results\":5\x7d"))
              (NewClient defaultInstanceURL []) (str "cats")).2
            = .error (str "failed to decode response: "
                ++ (exampleRuntime [] [] 200 (str "\x7b\"results\":5\x7d")).decodeErrorText e)) :=
  C8_decode_failure (exampleRuntime [] [] 200 (str "\x7b\"results\":5\x7d"))
    (NewClient defaultInstanceURL []) (str "cats") localhostSearchURL
    { StatusCode := 200, Body := str "\x7b\"results\":5\x7d", BodyErr := none }
    (by decide) (by rfl) (by decide)

/-- The search of C8's witness written out: the body with a number for `results` gives the
error, a body with a wrong member type deeper down as well, HTML as well. -/
theorem Search_wrong_shape :
    (Search (exampleRuntime [] [] 200 (str "\x7b\"results\":5\x7d"))
        (NewClient defaultInstanceURL []) (str "cats")).2
        = .error (str "failed to decode response: decoding error")
      ∧ (Search (exampleRuntime [] [] 200 (str "\x7b\"results\":[\x7b\"title\":5\x7d]\x7d"))
        (NewClient defaultInstanceURL []) (str "cats")).2
        = .error (str "failed to decode response: decoding error")
      ∧ (Search (exampleRuntime [] [] 200 (str "<html>"))
        (NewClient defaultInstanceURL []) (str "cats")).2
        = .error (str "failed to decode response: decoding error") := by
  decide

/-- C8 as stated fails: none of these bodies is as a whole a JSON document with a `results`
array of objects with three strings, yet `Search` returns a result for each: an object
followed by other bytes; `null`; an empty object; an object with another member, a
`results` name in capitals, a `null` title and a `null` element. -/
theorem C8_counterexample :
    (Search (exampleRuntime [] [] 200 (str "\x7b\"results\":[]\x7d trailing bytes"))
        (NewClient defaultInstanceURL []) (str "cats")).2 = .ok { Results := some [] }
      ∧ (Search (exampleRuntime [] [] 200 (str "null"))
        (NewClient defaultInstanceURL []) (str "cats")).2 = .ok { Results := none }
      ∧ (Search (exampleRuntime [] [] 200 (str "\x7b\x7d"))
        (NewClient defaultInstanceURL []) (str "cats")).2 = .ok { Results := none }
      ∧ (Search (exampleRuntime [] [] 200
            (str "\x7b\"n\":1,\"RESULTS\":[\x7b\"title\":null,\"url\":\"u\"\x7d,null]\x7d"))
        (NewClient defaultInstanceURL []) (str "cats")).2
          = .ok { Results := some [{ Title := [], URL := str "u", Description := [] },
                                   { Title := [], URL := [], Description := [] }] } := by
  decide

/-! ## Facts about UTF-8 -/

theorem DecodeRune_one (b : Byte) (t : GoString) (h : b.val < 0x80) :
    DecodeRuneInString (b :: t) = (b.val, 1) := by
  simp [DecodeRuneInString, h]

theorem DecodeRune_two (b0 b1 : Byte) (t : GoString) (h0 : 0xC2 ≤ b0.val ∧ b0.val < 0xE0)
    (h1 : 0x80 ≤ b1.val ∧ b1.val ≤ 0xBF) :
    DecodeRuneInString (b0 :: b1 :: t) = ((b0.val % 32) * 64 + b1.val % 64, 2) := by
  have a1 : ¬ b0.val < 0x80 := by omega
  have a2 : ¬ (b0.val < 0xC2 ∨ 0xF4 < b0.val) := by omega
  have a3 : b0.val < 0xE0 := h0.2
  have a4 : ¬ b0.val = 0xE0 := by omega
  have a5 : ¬ b0.val = 0xF0 := by omega
  have a6 : ¬ b0.val = 0xED := by omega
  have a7 : ¬ b0.val = 0xF4 := by omega
  have a8 : ¬ (b1.val < 0x80 ∨ 0xBF < b1.val) := by omega
  simp [DecodeRuneInString, a1, a2, a3, a4, a5, a6, a7, a8]

theorem DecodeRune_three (b0 b1 b2 : Byte) (t : GoString)
    (h0 : 0xE0 ≤ b0.val ∧ b0.val < 0xF0)
    (h1 : (if b0.val = 0xE0 then 0xA0 else 0x80) ≤ b1.val
      ∧ b1.val ≤ (if b0.val = 0xED then 0x9F else 0xBF))
    (h2 : 0x80 ≤ b2.val ∧ b2.val ≤ 0xBF) :
    DecodeRuneInString (b0 :: b1 :: b2 :: t)
      = ((b0.val % 16) * 4096 + (b1.val % 64) * 64 + b2.val % 64, 3) := by
  have a1 : ¬ b0.val < 0x80 := by omega
  have a2 : ¬ (b0.val < 0xC2 ∨ 0xF4 < b0.val) := by omega
  have a3 : ¬ b0.val < 0xE0 := by omega
  have a3b : b0.val < 0xF0 := h0.2
  have a5 : ¬ b0.val = 0xF0 := by omega
  have a7 : ¬ b0.val = 0xF4 := by omega
  have a8 : ¬ (b2.val < 0x80 ∨ 0xBF < b2.val) := by omega
  have a9 : ¬ (b1.val < (if b0.val = 0xE0 then 0xA0 else 0x80)
      ∨ (if b0.val = 0xED then 0x9F else 0xBF) < b1.val) := by omega
  simp [DecodeRuneInString, a1, a2, a3, a3b, a5, a7, a8, a9]

theorem DecodeRune_four (b0 b1 b2 b3 : Byte) (t : GoString)
    (h0 : 0xF0 ≤ b0.val ∧ b0.val ≤ 0xF4)
    (h1 : (if b0.val = 0xF0 then 0x90 else 0x80) ≤ b1.val
      ∧ b1.val ≤ (if b0.val = 0xF4 then 0x8F else 0xBF))
    (h2 : 0x80 ≤ b2.val ∧ b2.val ≤ 0xBF) (h3 : 0x80 ≤ b3.val ∧ b3.val ≤ 0xBF) :
    DecodeRuneInString (b0 :: b1 :: b2 :: b3 :: t)
      = ((b0.val % 8) * 262144 + (b1.val % 64) * 4096 + (b2.val % 64) * 64 + b3.val % 64, 4) := by
  have a1 : ¬ b0.val < 0x80 := by omega
  have a2 : ¬ (b0.val < 0xC2 ∨ 0xF4 < b0.val) := by omega
  have a3 : ¬ b0.val < 0xE0 := by omega
  have a3b : ¬ b0.val < 0xF0 := by omega
  have a4 : ¬ b0.val = 0xE0 := by omega
  have a6 : ¬ b0.val = 0xED := by omega
  have a8 : ¬ (b2.val < 0x80 ∨ 0xBF < b2.val) := by omega
  have a8b : ¬ (b3.val < 0x80 ∨ 0xBF < b3.val) := by omega
  have a9 : ¬ (b1.val < (if b0.val = 0xF0 then 0x90 else 0x80)
      ∨ (if b0.val = 0xF4 then 0x8F else 0xBF) < b1.val) := by omega
  simp [DecodeRuneInString, a1, a2, a3, a3b, a4, a6, a8, a8b, a9]

theorem invalid_of_eq (s : GoString) (h : DecodeRuneInString s = (RuneError, 1)) :
    (DecodeRuneInString s).1 = RuneError ∧ (DecodeRuneInString s).2 = 1 := by
  rw [h]; exact ⟨rfl, rfl⟩

/-- The shapes of a string that starts with a valid UTF-8 encoding. -/
theorem DecodeRune_valid_cases (s : GoString) (hne : s ≠ [])
    (hv : ¬ ((DecodeRuneInString s).1 = RuneError ∧ (DecodeRuneInString s).2 = 1)) :
    (∃ b t, s = b :: t ∧ b.val < 0x80)
      ∨ (∃ b0 b1 t, s = b0 :: b1 :: t ∧ (0xC2 ≤ b0.val ∧ b0.val < 0xE0)
          ∧ (0x80 ≤ b1.val ∧ b1.val ≤ 0xBF))
      ∨ (∃ b0 b1 b2 t, s = b0 :: b1 :: b2 :: t ∧ (0xE0 ≤ b0.val ∧ b0.val < 0xF0)
          ∧ ((if b0.val = 0xE0 then 0xA0 else 0x80) ≤ b1.val
              ∧ b1.val ≤ (if b0.val = 0xED then 0x9F else 0xBF))
          ∧ (0x80 ≤ b2.val ∧ b2.val ≤ 0xBF))
      ∨ (∃ b0 b1 b2 b3 t, s = b0 :: b1 :: b2 :: b3 :: t ∧ (0xF0 ≤ b0.val ∧ b0.val ≤ 0xF4)
          ∧ ((if b0.val = 0xF0 then 0x90 else 0x80) ≤ b1.val
              ∧ b1.val ≤ (if b0.val = 0xF4 then 0x8F else 0xBF))
          ∧ (0x80 ≤ b2.val ∧ b2.val ≤ 0xBF) ∧ (0x80 ≤ b3.val ∧ b3.val ≤ 0xBF)) := by
  cases s with
  | nil => exact absurd rfl hne
  | cons s0 t =>
    by_cases a1 : s0.val < 0x80
    · exact Or.inl ⟨s0, t, rfl, a1⟩
    by_cases a2 : s0.val < 0xC2 ∨ 0xF4 < s0.val
    · exact absurd (invalid_of_eq _ (by simp only [DecodeRuneInString, List.length]; split_ifs <;> first | rfl | omega)) hv
    cases t with
    | nil => exact absurd (invalid_of_eq _ (by simp only [DecodeRuneInString, List.length]; split_ifs <;> first | rfl | omega)) hv
    | cons s1 t1 =>
      by_cases c1 : s1.val < (if s0.val = 0xE0 then 0xA0 else if s0.val = 0xF0 then 0x90 else 0x80)
          ∨ (if s0.val = 0xED then 0x9F else if s0.val = 0xF4 then 0x8F else 0xBF) < s1.val
      · exact absurd (invalid_of_eq _ (by simp only [DecodeRuneInString, List.length]; split_ifs <;> first | rfl | omega)) hv
      by_cases a3 : s0.val < 0xE0
      · right; left
        refine ⟨s0, s1, t1, rfl, by omega, ?_⟩
        split_ifs at c1 <;> omega
      cases t1 with
      | nil =>
        exact absurd (invalid_of_eq _ (by simp only [DecodeRuneInString, List.length]; split_ifs <;> first | rfl | omega)) hv
      | cons s2 t2 =>
        by_cases c2 : s2.val < 0x80 ∨ 0xBF < s2.val
        · exact absurd (invalid_of_eq _ (by simp only [DecodeRuneInString, List.length]; split_ifs <;> first | rfl | omega)) hv
        by_cases a4 : s0.val < 0xF0
        · right; right; left
          refine ⟨s0, s1, s2, t2, rfl, by omega, ?_, by omega⟩
          split_ifs at c1 ⊢ <;> omega
        cases t2 with
        | nil => exact absurd (invalid_of_eq _ (by simp only [DecodeRuneInString, List.length]; split_ifs <;> first | rfl | omega)) hv
        | cons s3 t3 =>
          by_cases c3 : s3.val < 0x80 ∨ 0xBF < s3.val
          · exact absurd (invalid_of_eq _ (by simp only [DecodeRuneInString, List.length]; split_ifs <;> first | rfl | omega)) hv
          right; right; right
          refine ⟨s0, s1, s2, s3, t3, rfl, by omega, ?_, by omega, by omega⟩
          split_ifs at c1 ⊢ <;> omega
/-! ## Facts about `strings.TrimSpace` and `readQuery` -/

/-- The code points that `unicode.IsSpace` accepts. -/
theorem IsSpace_cases (r : Nat) (h : IsSpace r = true) :
    r = 9 ∨ r = 10 ∨ r = 11 ∨ r = 12 ∨ r = 13 ∨ r = 32 ∨ r = 0x85 ∨ r = 0xA0 ∨ r = 0x1680
      ∨ r = 0x2000 ∨ r = 0x2001 ∨ r = 0x2002 ∨ r = 0x2003 ∨ r = 0x2004 ∨ r = 0x2005
      ∨ r = 0x2006 ∨ r = 0x2007 ∨ r = 0x2008 ∨ r = 0x2009 ∨ r = 0x200A ∨ r = 0x2028
      ∨ r = 0x2029 ∨ r = 0x202F ∨ r = 0x205F ∨ r = 0x3000 := by
  unfold IsSpace at h
  split at h
  · simp at h
    rcases h with h | h | h | h | h | h | h | h <;> simp [h]
  · simp at h
    rcases h with h | ⟨h1, h2⟩ | h | h | h | h | h
    · simp [h]
    · interval_cases r <;> simp
    all_goals simp [h]

theorem DecodeRune_space (r : Nat) (t : GoString) (h : IsSpace r = true) :
    DecodeRuneInString (EncodeRune r ++ t) = (r, (EncodeRune r).length)
      ∧ 0 < (EncodeRune r).length := by
  rcases IsSpace_cases r h with h | h | h | h | h | h | h | h | h | h | h | h | h | h | h | h | h
    | h | h | h | h | h | h | h | h <;> subst h
  any_goals
    refine ⟨?_, by decide⟩
    first
      | exact DecodeRune_one _ t (by decide)
      | exact DecodeRune_two _ _ t (by decide) (by decide)
      | exact DecodeRune_three _ _ _ t (by decide) (by decide) (by decide)

theorem EncodeRune_space_no_newline (r : Nat) (h : IsSpace r = true) (hn : r ≠ 10) :
    (10 : Byte) ∉ EncodeRune r := by
  rcases IsSpace_cases r h with h | h | h | h | h | h | h | h | h | h | h | h | h | h | h | h | h
    | h | h | h | h | h | h | h | h <;> subst h <;> first | exact absurd rfl hn | decide

theorem utf8_cons (r : Nat) (rs : List Nat) : utf8 (r :: rs) = EncodeRune r ++ utf8 rs := by
  simp [utf8]

theorem utf8_append (rs ts : List Nat) : utf8 (rs ++ ts) = utf8 rs ++ utf8 ts := by
  simp [utf8]

theorem utf8_no_newline (rs : List Nat) (h : ∀ r ∈ rs, IsSpace r = true ∧ r ≠ 10) :
    (10 : Byte) ∉ utf8 rs := by
  intro hm
  simp only [utf8, List.mem_flatMap] at hm
  obtain ⟨r, hr, hb⟩ := hm
  exact EncodeRune_space_no_newline r (h r hr).1 (h r hr).2 hb

theorem indexFuncAux_spaces (rs : List Nat) (h : ∀ r ∈ rs, IsSpace r = true) :
    ∀ fuel i, indexFuncAux IsSpace false fuel i (utf8 rs) = none := by
  induction rs with
  | nil => intro fuel i; cases fuel <;> simp [indexFuncAux, utf8]
  | cons r rs ih =>
    intro fuel i
    cases fuel with
    | zero => rfl
    | succ n =>
      have hr := h r (List.mem_cons_self _ _)
      obtain ⟨hd, hl⟩ := DecodeRune_space r (utf8 rs) hr
      rw [utf8_cons]
      cases he : EncodeRune r with
      | nil => rw [he] at hl; simp at hl
      | cons b bs =>
        rw [List.cons_append, indexFuncAux]
        have hd2 : DecodeRuneInString (b :: (bs ++ utf8 rs)) = (r, (b :: bs).length) := by
          rw [← List.cons_append, ← he]; exact hd
        simp only [hd2, hr]
        have : List.drop (b :: bs).length (b :: (bs ++ utf8 rs)) = utf8 rs := by
          rw [← List.cons_append]; simp
        rw [this]
        simpa using ih (fun x hx => h x (List.mem_cons_of_mem _ hx)) n _

theorem TrimFunc_spaces (rs : List Nat) (h : ∀ r ∈ rs, IsSpace r = true) :
    TrimFunc (utf8 rs) IsSpace = [] := by
  have : TrimLeftFunc (utf8 rs) IsSpace = [] := by
    simp only [TrimLeftFunc, indexFunc, indexFuncAux_spaces rs h]
  rw [TrimFunc, this]
  rfl

/-- The first loop of TrimSpace on white space only: it runs to the end, or it stops with
the flag set at a suffix that is white space only. -/
theorem trimSpaceStart_spaces (rs : List Nat) (h : ∀ r ∈ rs, IsSpace r = true) :
    ∀ i, trimSpaceStart (utf8 rs) i = (i + (utf8 rs).length, false)
      ∨ ∃ k ts, (∀ r ∈ ts, IsSpace r = true) ∧ trimSpaceStart (utf8 rs) i = (i + k, true)
          ∧ (utf8 rs).drop k = utf8 ts := by
  induction rs with
  | nil => intro i; left; simp [utf8, trimSpaceStart]
  | cons r rs ih =>
    intro i
    have hr := h r (List.mem_cons_self _ _)
    have hrs : ∀ x ∈ rs, IsSpace x = true := fun x hx => h x (List.mem_cons_of_mem _ hx)
    by_cases hlt : r < 0x80
    · have he : EncodeRune r = [Fin.ofNat r] := by simp [EncodeRune, hlt]
      have ha : asciiSpace (Fin.ofNat r) = true := by
        rcases IsSpace_cases r hr with h | h | h | h | h | h | h | h | h | h | h | h | h | h
          | h | h | h | h | h | h | h | h | h | h | h <;> subst h <;> first | decide | omega
      have hv : ¬ 0x80 ≤ (Fin.ofNat r : Byte).val := by
        simp only [Fin.ofNat, not_le]
        omega
      rw [utf8_cons, he, List.singleton_append, trimSpaceStart]
      simp only [hv, ha, if_false, if_true]
      rcases ih hrs (i + 1) with h1 | ⟨k, ts, hts, h1, h2⟩
      · left; rw [h1]; simp; omega
      · right
        refine ⟨k + 1, ts, hts, ?_, ?_⟩
        · rw [h1]; simp; omega
        · simpa using h2
    · right
      refine ⟨0, r :: rs, h, ?_, by simp⟩
      have hb : ∃ b bs, EncodeRune r = b :: bs ∧ 0x80 ≤ b.val := by
        rcases IsSpace_cases r hr with h | h | h | h | h | h | h | h | h | h | h | h | h | h
          | h | h | h | h | h | h | h | h | h | h | h <;> subst h <;>
          first | omega | exact ⟨_, _, rfl, by decide⟩
      obtain ⟨b, bs, he, hb⟩ := hb
      rw [utf8_cons, he, List.cons_append, trimSpaceStart]
      simp [hb]

theorem TrimSpace_spaces (rs : List Nat) (h : ∀ r ∈ rs, IsSpace r = true) :
    TrimSpace (utf8 rs) = [] := by
  unfold TrimSpace
  rcases trimSpaceStart_spaces rs h 0 with h1 | ⟨k, ts, hts, h1, h2⟩
  · simp [h1, trimSpaceStop]
  · simp only [h1, zero_add, h2, if_true]
    exact TrimFunc_spaces ts hts

/-- A byte that starts a rune (is not a continuation byte) is below `0x80` or above `0xBF`. -/
theorem RuneStart_iff (c : Byte) : RuneStart c = true ↔ (c.val < 0x80 ∨ 0xBF < c.val) := by
  have := c.isLt
  simp only [RuneStart, decide_eq_true_eq]
  omega

/-- Bytes that follow do not change the first rune, when the first of them starts a rune. -/
theorem DecodeRune_append (s t : GoString) (hs : s ≠ [])
    (ht : ∀ c ∈ t.head?, RuneStart c = true) :
    DecodeRuneInString (s ++ t) = DecodeRuneInString s := by
  cases t with
  | nil => simp
  | cons c t =>
    have hc : c.val < 0x80 ∨ 0xBF < c.val := (RuneStart_iff c).1 (ht c (by simp))
    by_cases hv : (DecodeRuneInString s).1 = RuneError ∧ (DecodeRuneInString s).2 = 1
    · by_cases hw : (DecodeRuneInString (s ++ c :: t)).1 = RuneError
          ∧ (DecodeRuneInString (s ++ c :: t)).2 = 1
      · exact Prod.ext (hw.1.trans hv.1.symm) (hw.2.trans hv.2.symm)
      · rcases DecodeRune_valid_cases (s ++ c :: t) (by simp) hw with
          ⟨b, u, e, h⟩ | ⟨b0, b1, u, e, h0, h1⟩ | ⟨b0, b1, b2, u, e, h0, h1, h2⟩
            | ⟨b0, b1, b2, b3, u, e, h0, h1, h2, h3⟩
        · match s, hs, e with
          | a :: s1, _, e =>
            simp only [List.cons_append, List.cons.injEq] at e
            obtain ⟨rfl, -⟩ := e
            rw [List.cons_append, DecodeRune_one _ _ h, DecodeRune_one _ _ h]
        · match s, hs, e with
          | [a], _, e =>
            simp only [List.cons_append, List.nil_append, List.cons.injEq] at e
            obtain ⟨-, rfl, -⟩ := e
            omega
          | a :: a1 :: s1, _, e =>
            simp only [List.cons_append, List.cons.injEq] at e
            obtain ⟨rfl, rfl, -⟩ := e
            rw [List.cons_append, List.cons_append, DecodeRune_two _ _ _ h0 h1,
              DecodeRune_two _ _ _ h0 h1]
        · match s, hs, e with
          | [a], _, e =>
            simp only [List.cons_append, List.nil_append, List.cons.injEq] at e
            obtain ⟨rfl, rfl, -⟩ := e
            split_ifs at h1 <;> omega
          | [a, a1], _, e =>
            simp only [List.cons_append, List.nil_append, List.cons.injEq] at e
            obtain ⟨-, -, rfl, -⟩ := e
            omega
          | a :: a1 :: a2 :: s1, _, e =>
            simp only [List.cons_append, List.cons.injEq] at e
            obtain ⟨rfl, rfl, rfl, -⟩ := e
            rw [List.cons_append, List.cons_append, List.cons_append,
              DecodeRune_three _ _ _ _ h0 h1 h2, DecodeRune_three _ _ _ _ h0 h1 h2]
        · match s, hs, e with
          | [a], _, e =>
            simp only [List.cons_append, List.nil_append, List.cons.injEq] at e
            obtain ⟨rfl, rfl, -⟩ := e
            split_ifs at h1 <;> omega
          | [a, a1], _, e =>
            simp only [List.cons_append, List.nil_append, List.cons.injEq] at e
            obtain ⟨-, -, rfl, -⟩ := e
            omega
          | [a, a1, a2], _, e =>
            simp only [List.cons_append, List.nil_append, List.cons.injEq] at e
            obtain ⟨-, -, -, rfl, -⟩ := e
            omega
          | a :: a1 :: a2 :: a3 :: s1, _, e =>
            simp only [List.cons_append, List.cons.injEq] at e
            obtain ⟨rfl, rfl, rfl, rfl, -⟩ := e
            rw [List.cons_append, List.cons_append, List.cons_append, List.cons_append,
              DecodeRune_four _ _ _ _ _ h0 h1 h2 h3, DecodeRune_four _ _ _ _ _ h0 h1 h2 h3]
    · rcases DecodeRune_valid_cases s hs hv with
        ⟨b, u, rfl, h⟩ | ⟨b0, b1, u, rfl, h0, h1⟩ | ⟨b0, b1, b2, u, rfl, h0, h1, h2⟩
          | ⟨b0, b1, b2, b3, u, rfl, h0, h1, h2, h3⟩
      · rw [List.cons_append, DecodeRune_one _ _ h, DecodeRune_one _ _ h]
      · rw [List.cons_append, List.cons_append, DecodeRune_two _ _ _ h0 h1,
          DecodeRune_two _ _ _ h0 h1]
      · rw [List.cons_append, List.cons_append, List.cons_append,
          DecodeRune_three _ _ _ _ h0 h1 h2, DecodeRune_three _ _ _ _ h0 h1 h2]
      · rw [List.cons_append, List.cons_append, List.cons_append, List.cons_append,
          DecodeRune_four _ _ _ _ _ h0 h1 h2 h3, DecodeRune_four _ _ _ _ _ h0 h1 h2 h3]

theorem getD_append_at (x y : GoString) (k : Nat) :
    (x ++ y).getD (x.length + k) 0 = y.getD k 0 := by
  rw [List.getD_append_right _ _ _ _ (Nat.le_add_right _ _)]
  simp

theorem DecodeLast_one (x : GoString) (b : Byte) (h : b.val < 0x80) :
    DecodeLastRuneInString (x ++ [b]) = (b.val, 1) := by
  have hg : (x ++ [b]).getD (x.length + 1 - 1) 0 = b := by
    have := getD_append_at x [b] 0
    simpa using this
  simp only [DecodeLastRuneInString, List.length_append, List.length_singleton,
    Nat.add_one_ne_zero, if_false, hg, h, if_true]

theorem DecodeLast_two (x : GoString) (c0 c1 : Byte) (d : Rune × Nat)
    (h0 : RuneStart c0 = true) (h1 : ¬ c1.val < 0x80)
    (hd : DecodeRuneInString [c0, c1] = d) (h2 : d.2 = 2) :
    DecodeLastRuneInString (x ++ [c0, c1]) = d := by
  have hl : (x ++ [c0, c1]).length = x.length + 2 := by simp
  have hg1 : (x ++ [c0, c1]).getD (x.length + 2 - 1) 0 = c1 := by
    have := getD_append_at x [c0, c1] 1
    simpa using this
  have hg0 : (x ++ [c0, c1]).getD (x.length + 2 - 2) 0 = c0 := by
    have := getD_append_at x [c0, c1] 0
    simpa using this
  have hs : lastRuneStart (x ++ [c0, c1]) = x.length := by
    simp only [lastRuneStart, hl, hg0, h0]
    simp
  simp only [DecodeLastRuneInString, hl, hg1, h1, hs, List.drop_left, hd, h2]
  simp

theorem DecodeLast_three (x : GoString) (c0 c1 c2 : Byte) (d : Rune × Nat)
    (h0 : RuneStart c0 = true) (h1 : RuneStart c1 = false) (h2 : ¬ c2.val < 0x80)
    (hd : DecodeRuneInString [c0, c1, c2] = d) (h3 : d.2 = 3) :
    DecodeLastRuneInString (x ++ [c0, c1, c2]) = d := by
  have hl : (x ++ [c0, c1, c2]).length = x.length + 3 := by simp
  have hg2 : (x ++ [c0, c1, c2]).getD (x.length + 3 - 1) 0 = c2 := by
    have := getD_append_at x [c0, c1, c2] 2
    simpa using this
  have hg1 : (x ++ [c0, c1, c2]).getD (x.length + 3 - 2) 0 = c1 := by
    have := getD_append_at x [c0, c1, c2] 1
    simpa using this
  have hg0 : (x ++ [c0, c1, c2]).getD (x.length + 3 - 3) 0 = c0 := by
    have := getD_append_at x [c0, c1, c2] 0
    simpa using this
  have hs : lastRuneStart (x ++ [c0, c1, c2]) = x.length := by
    simp only [lastRuneStart, hl, hg0, hg1, h0, h1]
    simp
  simp only [DecodeLastRuneInString, hl, hg2, h2, hs, List.drop_left, hd, h3]
  simp

/-- The last rune of a string that ends with the encoding of a white space rune. -/
theorem DecodeLast_space (r : Nat) (x : GoString) (h : IsSpace r = true) :
    DecodeLastRuneInString (x ++ EncodeRune r) = (r, (EncodeRune r).length) := by
  rcases IsSpace_cases r h with h | h | h | h | h | h | h | h | h | h | h | h | h | h | h | h | h
    | h | h | h | h | h | h | h | h <;> subst h
  any_goals
    first
      | exact DecodeLast_one x _ (by decide)
      | exact DecodeLast_two x _ _ _ (by decide) (by decide) (by decide) rfl
      | exact DecodeLast_three x _ _ _ _ (by decide) (by decide) (by decide) (by decide) rfl

theorem lastRuneStart_lt (s : GoString) (hs : s ≠ []) : lastRuneStart s < s.length := by
  have : 0 < s.length := List.length_pos.2 hs
  simp only [lastRuneStart]
  split_ifs <;> omega

theorem DecodeRune_width_ascii (c : Byte) (t : GoString) (h : ¬ 0x80 ≤ c.val) :
    (DecodeRuneInString (c :: t)).2 = 1 := by
  rw [DecodeRune_one c t (by omega)]

theorem DecodeRune_width_single (b : Byte) (h : ¬ b.val < 0x80) :
    (DecodeRuneInString [b]).2 = 1 := by
  simp only [DecodeRuneInString, h, if_false, List.length_singleton]
  split_ifs <;> first | rfl | omega

/-- The width of the last rune of `s` is the width that decoding forward finds at the
offset where the last rune starts, also when bytes that start a rune follow. -/
theorem DecodeLast_width (s t : GoString) (hs : s ≠ [])
    (ht : ∀ c ∈ t.head?, RuneStart c = true) :
    ∃ i, i < s.length ∧ i + (DecodeLastRuneInString s).2 = s.length
      ∧ (if 0x80 ≤ (s.getD i 0).val
          then (DecodeRuneInString (s.drop i ++ t)).2 = (DecodeLastRuneInString s).2
          else (DecodeLastRuneInString s).2 = 1) := by
  obtain ⟨x, b, rfl⟩ : ∃ x b, s = x ++ [b] := by
    rcases List.eq_nil_or_concat s with h | ⟨x, b, h⟩
    · exact absurd h hs
    · exact ⟨x, b, by rw [h, List.concat_eq_append]⟩
  have hl : (x ++ [b]).length = x.length + 1 := by simp
  have hg : (x ++ [b]).getD (x.length + 1 - 1) 0 = b := by
    have := getD_append_at x [b] 0
    simpa using this
  have hg2 : (x ++ [b]).getD x.length 0 = b := by simpa using hg
  by_cases hb : b.val < 0x80
  · refine ⟨x.length, by omega, ?_, ?_⟩
    · rw [DecodeLast_one x b hb, hl]
    · rw [hg2, if_neg (by omega), DecodeLast_one x b hb]
  · have hlt := lastRuneStart_lt (x ++ [b]) hs
    by_cases hm : lastRuneStart (x ++ [b])
        + (DecodeRuneInString ((x ++ [b]).drop (lastRuneStart (x ++ [b])))).2 ≠ (x ++ [b]).length
    · have hD : DecodeLastRuneInString (x ++ [b]) = (RuneError, 1) := by
        simp only [DecodeLastRuneInString, hl, hg, hb, Nat.add_one_ne_zero, if_false]
        rw [hl] at hm
        rw [if_pos hm]
      refine ⟨x.length, by omega, ?_, ?_⟩
      · rw [hD, hl]
      · rw [hg2, if_pos (by omega), hD, List.drop_left,
          DecodeRune_append [b] t (by simp) ht]
        exact DecodeRune_width_single b hb
    · have hm2 := not_not.1 hm
      have hD : DecodeLastRuneInString (x ++ [b])
          = DecodeRuneInString ((x ++ [b]).drop (lastRuneStart (x ++ [b]))) := by
        have hm3 := hm2
        rw [hl] at hm3
        simp only [DecodeLastRuneInString, hl, hg, hb, Nat.add_one_ne_zero, if_false]
        rw [if_neg (not_not.2 hm3)]
      refine ⟨lastRuneStart (x ++ [b]), hlt, ?_, ?_⟩
      · rw [hD]; exact hm2
      · have hne : (x ++ [b]).drop (lastRuneStart (x ++ [b])) ≠ [] := by
          intro h0
          have := congrArg List.length h0
          simp only [List.length_drop, List.length_nil] at this
          omega
        split_ifs with h80
        · rw [DecodeRune_append _ t hne ht, hD]
        · rw [hD, List.drop_eq_getElem_cons hlt]
          apply DecodeRune_width_ascii
          rw [List.getD_eq_getElem _ _ hlt] at h80
          exact h80

/-- The last step of TrimRightFunc: from the offset of the last rune of `s`, the slice up
to the end of that rune is `s`. -/
theorem TrimRight_step (s t : GoString) (hs : s ≠ [])
    (ht : ∀ c ∈ t.head?, RuneStart c = true) :
    (if 0x80 ≤ ((s ++ t).getD (s.length - (DecodeLastRuneInString s).2) 0).val
      then (s ++ t).take (s.length - (DecodeLastRuneInString s).2
        + (DecodeRuneInString ((s ++ t).drop (s.length - (DecodeLastRuneInString s).2))).2)
      else (s ++ t).take (s.length - (DecodeLastRuneInString s).2 + 1)) = s := by
  obtain ⟨i, hi, hw, hc⟩ := DecodeLast_width s t hs ht
  have e : s.length - (DecodeLastRuneInString s).2 = i := by omega
  rw [e, List.getD_append _ _ _ _ hi, List.drop_append_of_le_length (le_of_lt hi)]
  split_ifs with h80
  · rw [if_pos h80] at hc
    rw [hc, hw, List.take_left]
  · rw [if_neg h80] at hc
    have : i + 1 = s.length := by omega
    rw [this, List.take_left]

theorem EncodeRune_ne_nil (r : Nat) : EncodeRune r ≠ [] := by
  unfold EncodeRune
  split_ifs <;> simp

theorem utf8_singleton (r : Nat) : utf8 [r] = EncodeRune r := by
  simp [utf8]

theorem utf8_length_ge (rs : List Nat) : rs.length ≤ (utf8 rs).length := by
  induction rs with
  | nil => simp
  | cons r rs ih =>
    have := List.length_pos.2 (EncodeRune_ne_nil r)
    rw [utf8_cons, List.length_append, List.length_cons]
    omega

/-- The encoding of white space starts with a byte that starts a rune. -/
theorem utf8_head_start (rs : List Nat) (h : ∀ r ∈ rs, IsSpace r = true) :
    ∀ c ∈ (utf8 rs).head?, RuneStart c = true := by
  cases rs with
  | nil => intro c hc; simp [utf8] at hc
  | cons r rs =>
    intro c hc
    have hr := h r (List.mem_cons_self _ _)
    rw [utf8_cons] at hc
    rcases IsSpace_cases r hr with h | h | h | h | h | h | h | h | h | h | h | h | h | h | h
      | h | h | h | h | h | h | h | h | h | h <;> subst h <;>
      · simp only [EncodeRune] at hc
        simp at hc
        subst hc
        decide

theorem asciiSpace_IsSpace : ∀ c : Byte, asciiSpace c = true → IsSpace c.val = true := by
  decide!

/-- The loop of lastIndexFunc steps back over trailing white space and stops at the last
rune of `s`. -/
theorem lastIndexFuncAux_skip (S s : GoString) (hs : s ≠ [])
    (hns : IsSpace (DecodeLastRuneInString s).1 = false) :
    ∀ (post : List Nat) (fuel : Nat), (∀ r ∈ post, IsSpace r = true) → post.length < fuel →
      S.take (s.length + (utf8 post).length) = s ++ utf8 post →
      lastIndexFuncAux IsSpace false S fuel (s.length + (utf8 post).length)
        = some (s.length - (DecodeLastRuneInString s).2) := by
  have hpos : 0 < s.length := List.length_pos.2 hs
  intro post
  induction post using List.reverseRecOn with
  | nil =>
    intro fuel _ hf hS
    cases fuel with
    | zero => omega
    | succ n =>
      have e0 : (utf8 ([] : List Nat)).length = 0 := by simp [utf8]
      have e1 : utf8 ([] : List Nat) = [] := by simp [utf8]
      rw [e0, Nat.add_zero] at hS ⊢
      rw [e1, List.append_nil] at hS
      rw [lastIndexFuncAux, if_neg (by omega)]
      simp only [Nat.add_zero, hS, hns, if_true]
  | append_singleton init r ih =>
    intro fuel hall hf hS
    cases fuel with
    | zero => omega
    | succ n =>
      have hr : IsSpace r = true := hall r (by simp)
      have hinit : ∀ x ∈ init, IsSpace x = true := fun x hx => hall x (by simp [hx])
      have eu : utf8 (init ++ [r]) = utf8 init ++ EncodeRune r := by
        rw [utf8_append, utf8_singleton]
      have el : (utf8 (init ++ [r])).length = (utf8 init).length + (EncodeRune r).length := by
        rw [eu, List.length_append]
      have hS2 : S.take (s.length + (utf8 (init ++ [r])).length)
          = (s ++ utf8 init) ++ EncodeRune r := by
        rw [hS, eu, List.append_assoc]
      have hd := DecodeLast_space r (s ++ utf8 init) hr
      rw [lastIndexFuncAux, if_neg (by omega)]
      simp only [hS2, hd, hr]
      have ej : s.length + (utf8 (init ++ [r])).length - (EncodeRune r).length
          = s.length + (utf8 init).length := by omega
      rw [ej]
      have hS3 : S.take (s.length + (utf8 init).length) = s ++ utf8 init := by
        have h1 : (S.take (s.length + (utf8 (init ++ [r])).length)).take
            (s.length + (utf8 init).length) = s ++ utf8 init := by
          rw [hS2]
          have : s.length + (utf8 init).length = (s ++ utf8 init).length := by simp
          rw [this, List.take_left]
        rw [List.take_take] at h1
        have : min (s.length + (utf8 init).length) (s.length + (utf8 (init ++ [r])).length)
            = s.length + (utf8 init).length := by omega
        rw [this] at h1
        exact h1
      have hlen : init.length < n := by
        simp only [List.length_append, List.length_singleton] at hf
        omega
      simpa using ih n hinit hlen hS3

/-- TrimRightFunc removes trailing white space after a string whose last rune is not
white space. -/
theorem TrimRightFunc_core (s : GoString) (post : List Nat) (hs : s ≠ [])
    (hns : IsSpace (DecodeLastRuneInString s).1 = false)
    (hpost : ∀ r ∈ post, IsSpace r = true) :
    TrimRightFunc (s ++ utf8 post) IsSpace = s := by
  have hpos : 0 < s.length := List.length_pos.2 hs
  have hl := utf8_length_ge post
  have hi : lastIndexFunc (s ++ utf8 post) IsSpace false
      = some (s.length - (DecodeLastRuneInString s).2) := by
    rw [lastIndexFunc, List.length_append]
    exact lastIndexFuncAux_skip (s ++ utf8 post) s hs hns post _ hpost (by omega)
      (by rw [← List.length_append, List.take_length])
  rw [TrimRightFunc, hi]
  exact TrimRight_step s (utf8 post) hs (utf8_head_start post hpost)

/-- The loop of indexFunc steps over leading white space and stops at a rune that is not
white space. -/
theorem indexFuncAux_skip (T : GoString) (hT : T ≠ [])
    (hns : IsSpace (DecodeRuneInString T).1 = false) (pre : List Nat)
    (h : ∀ r ∈ pre, IsSpace r = true) :
    ∀ fuel i, pre.length < fuel →
      indexFuncAux IsSpace false fuel i (utf8 pre ++ T) = some (i + (utf8 pre).length) := by
  induction pre with
  | nil =>
    intro fuel i hf
    cases fuel with
    | zero => simp at hf
    | succ n =>
      have e1 : utf8 ([] : List Nat) = [] := by simp [utf8]
      rw [e1, List.nil_append]
      match T, hT, hns with
      | c :: cs, _, hns =>
        rw [indexFuncAux]
        simp only [hns, if_true, List.length_nil, Nat.add_zero]
  | cons r rs ih =>
    intro fuel i hf
    cases fuel with
    | zero => simp at hf
    | succ n =>
      have hr := h r (List.mem_cons_self _ _)
      obtain ⟨hd, hl⟩ := DecodeRune_space r (utf8 rs ++ T) hr
      rw [utf8_cons, List.append_assoc]
      cases he : EncodeRune r with
      | nil => rw [he] at hl; simp at hl
      | cons b bs =>
        rw [List.cons_append, indexFuncAux]
        have hd2 : DecodeRuneInString (b :: (bs ++ (utf8 rs ++ T))) = (r, (b :: bs).length) := by
          rw [← List.cons_append, ← he]; exact hd
        simp only [hd2, hr]
        have : List.drop (b :: bs).length (b :: (bs ++ (utf8 rs ++ T))) = utf8 rs ++ T := by
          rw [← List.cons_append]; simp
        rw [this]
        have hf2 : rs.length < n := by simpa using hf
        have := ih (fun x hx => h x (List.mem_cons_of_mem _ hx)) n (i + (b :: bs).length) hf2
        simp only [Bool.true_eq_false, if_false]
        rw [this]
        simp only [List.length_append, List.length_cons]
        congr 1
        omega

theorem TrimLeftFunc_core (T : GoString) (pre : List Nat) (hT : T ≠ [])
    (hns : IsSpace (DecodeRuneInString T).1 = false) (h : ∀ r ∈ pre, IsSpace r = true) :
    TrimLeftFunc (utf8 pre ++ T) IsSpace = T := by
  have hl := utf8_length_ge pre
  have hpos : 0 < T.length := List.length_pos.2 hT
  have hi : indexFunc (utf8 pre ++ T) IsSpace false = some (utf8 pre).length := by
    rw [indexFunc, indexFuncAux_skip T hT hns pre h _ 0 (by rw [List.length_append]; omega)]
    simp
  rw [TrimLeftFunc, hi]
  simp

/-- TrimFunc removes leading and trailing white space around a string whose first and
last runes are not white space. -/
theorem TrimFunc_core (s : GoString) (pre post : List Nat) (hs : s ≠ [])
    (hf : IsSpace (DecodeRuneInString s).1 = false)
    (hl : IsSpace (DecodeLastRuneInString s).1 = false)
    (hpre : ∀ r ∈ pre, IsSpace r = true) (hpost : ∀ r ∈ post, IsSpace r = true) :
    TrimFunc (utf8 pre ++ (s ++ utf8 post)) IsSpace = s := by
  have hT : s ++ utf8 post ≠ [] := by simp [hs]
  have hd : DecodeRuneInString (s ++ utf8 post) = DecodeRuneInString s :=
    DecodeRune_append s (utf8 post) hs (utf8_head_start post hpost)
  rw [TrimFunc, TrimLeftFunc_core (s ++ utf8 post) pre hT (by rw [hd]; exact hf) hpre]
  exact TrimRightFunc_core s post hs hl hpost

/-- The first loop of TrimSpace on white space followed by a string whose first rune is not
white space: it stops at that string, or it stops with the flag set at a suffix that is
white space followed by that string. -/
theorem trimSpaceStart_core (T : GoString) (hT : T ≠ [])
    (hns : IsSpace (DecodeRuneInString T).1 = false) (pre : List Nat)
    (h : ∀ r ∈ pre, IsSpace r = true) :
    ∀ i, trimSpaceStart (utf8 pre ++ T) i = (i + (utf8 pre).length, false)
      ∨ ∃ k ts, (∀ r ∈ ts, IsSpace r = true) ∧ trimSpaceStart (utf8 pre ++ T) i = (i + k, true)
          ∧ (utf8 pre ++ T).drop k = utf8 ts ++ T := by
  induction pre with
  | nil =>
    intro i
    have e1 : utf8 ([] : List Nat) = [] := by simp [utf8]
    rw [e1, List.nil_append]
    match T, hT, hns with
    | c :: cs, _, hns =>
      by_cases h80 : 0x80 ≤ c.val
      · right
        refine ⟨0, [], by simp, ?_, by simp [e1]⟩
        rw [trimSpaceStart, if_pos h80]; rfl
      · left
        have ha : asciiSpace c = false := by
          cases hc : asciiSpace c with
          | false => rfl
          | true =>
            have := asciiSpace_IsSpace c hc
            rw [DecodeRune_one c cs (by omega)] at hns
            rw [this] at hns
            cases hns
        rw [trimSpaceStart, if_neg h80, ha]
        simp
  | cons r rs ih =>
    intro i
    have hr := h r (List.mem_cons_self _ _)
    have hrs : ∀ x ∈ rs, IsSpace x = true := fun x hx => h x (List.mem_cons_of_mem _ hx)
    by_cases hlt : r < 0x80
    · have he : EncodeRune r = [Fin.ofNat r] := by simp [EncodeRune, hlt]
      have ha : asciiSpace (Fin.ofNat r) = true := by
        rcases IsSpace_cases r hr with h | h | h | h | h | h | h | h | h | h | h | h | h | h
          | h | h | h | h | h | h | h | h | h | h | h <;> subst h <;> first | decide | omega
      have hv : ¬ 0x80 ≤ (Fin.ofNat r : Byte).val := by
        simp only [Fin.ofNat, not_le]
        omega
      rw [utf8_cons, he, List.singleton_append, List.cons_append, trimSpaceStart]
      simp only [hv, ha, if_false, if_true]
      rcases ih hrs (i + 1) with h1 | ⟨k, ts, hts, h1, h2⟩
      · left; rw [h1]; simp; omega
      · right
        refine ⟨k + 1, ts, hts, ?_, ?_⟩
        · rw [h1]; simp; omega
        · simpa using h2
    · right
      refine ⟨0, r :: rs, h, ?_, by simp⟩
      have hb : ∃ b bs, EncodeRune r = b :: bs ∧ 0x80 ≤ b.val := by
        rcases IsSpace_cases r hr with h | h | h | h | h | h | h | h | h | h | h | h | h | h
          | h | h | h | h | h | h | h | h | h | h | h <;> subst h <;>
          first | omega | exact ⟨_, _, rfl, by decide⟩
      obtain ⟨b, bs, he, hb⟩ := hb
      rw [utf8_cons, he, List.cons_append, List.cons_append, trimSpaceStart]
      simp [hb]

/-- The second loop of TrimSpace on a string whose last rune is not white space, followed
by white space: it lowers `stop` over a suffix of the white space, and if it stops
without the flag, over all of it. -/
theorem trimSpaceStop_core (s : GoString) (hs : s ≠ [])
    (hl : IsSpace (DecodeLastRuneInString s).1 = false) :
    ∀ (post : List Nat), (∀ r ∈ post, IsSpace r = true) → ∀ n : Nat,
      ∃ (post1 post2 : List Nat) (flag : Bool), post = post1 ++ post2
        ∧ trimSpaceStop (s ++ utf8 post).reverse n = (n - (utf8 post2).length, flag)
        ∧ (flag = false → post1 = []) := by
  have e1 : utf8 ([] : List Nat) = [] := by simp [utf8]
  intro post
  induction post using List.reverseRecOn with
  | nil =>
    intro _ n
    obtain ⟨x, b, rfl⟩ : ∃ x b, s = x ++ [b] := by
      rcases List.eq_nil_or_concat s with h | ⟨x, b, h⟩
      · exact absurd h hs
      · exact ⟨x, b, by rw [h, List.concat_eq_append]⟩
    have er : (x ++ [b] ++ utf8 []).reverse = b :: x.reverse := by simp [e1]
    by_cases h80 : 0x80 ≤ b.val
    · refine ⟨[], [], true, rfl, ?_, by simp⟩
      rw [er, trimSpaceStop, if_pos h80, e1]; rfl
    · have ha : asciiSpace b = false := by
        cases hc : asciiSpace b with
        | false => rfl
        | true =>
          have := asciiSpace_IsSpace b hc
          rw [DecodeLast_one x b (by omega)] at hl
          rw [this] at hl
          cases hl
      refine ⟨[], [], false, rfl, ?_, fun _ => rfl⟩
      rw [er, trimSpaceStop, if_neg h80, ha, e1]
      simp
  | append_singleton init r ih =>
    intro hall n
    have hr : IsSpace r = true := hall r (by simp)
    have hinit : ∀ x ∈ init, IsSpace x = true := fun x hx => hall x (by simp [hx])
    have eu : utf8 (init ++ [r]) = utf8 init ++ EncodeRune r := by
      rw [utf8_append, utf8_singleton]
    by_cases hlt : r < 0x80
    · have he : EncodeRune r = [Fin.ofNat r] := by simp [EncodeRune, hlt]
      have ha : asciiSpace (Fin.ofNat r) = true := by
        rcases IsSpace_cases r hr with h | h | h | h | h | h | h | h | h | h | h | h | h | h
          | h | h | h | h | h | h | h | h | h | h | h <;> subst h <;> first | decide | omega
      have hv : ¬ 0x80 ≤ (Fin.ofNat r : Byte).val := by
        simp only [Fin.ofNat, not_le]
        omega
      obtain ⟨p1, p2, flag, hp, ht, hf⟩ := ih hinit (n - 1)
      refine ⟨p1, p2 ++ [r], flag, by rw [hp, List.append_assoc], ?_, hf⟩
      have er : (s ++ utf8 (init ++ [r])).reverse
          = Fin.ofNat r :: (s ++ utf8 init).reverse := by
        rw [eu, he, ← List.append_assoc, List.reverse_append]; rfl
      rw [er, trimSpaceStop, if_neg hv, ha, if_pos rfl, ht, utf8_append, utf8_singleton, he]
      simp only [List.length_append, List.length_singleton, Prod.mk.injEq, and_true]
      omega
    · have hb : ∃ bs b, EncodeRune r = bs ++ [b] ∧ 0x80 ≤ b.val := by
        rcases IsSpace_cases r hr with h | h | h | h | h | h | h | h | h | h | h | h | h | h
          | h | h | h | h | h | h | h | h | h | h | h <;> subst h <;>
          first
            | omega
            | exact ⟨[_], _, rfl, by decide⟩
            | exact ⟨[_, _], _, rfl, by decide⟩
      obtain ⟨bs, b, he, hb⟩ := hb
      refine ⟨init ++ [r], [], true, by simp, ?_, by simp⟩
      have er : (s ++ utf8 (init ++ [r])).reverse
          = b :: (s ++ utf8 init ++ bs).reverse := by
        rw [eu, he, ← List.append_assoc, ← List.append_assoc, List.reverse_append]; rfl
      rw [er, trimSpaceStop, if_pos hb, e1]; rfl

/-- TrimSpace removes the white space around a string whose first and last runes are not
white space. -/
theorem TrimSpace_core (s : GoString) (pre post : List Nat) (hs : s ≠ [])
    (hf : IsSpace (DecodeRuneInString s).1 = false)
    (hl : IsSpace (DecodeLastRuneInString s).1 = false)
    (hpre : ∀ r ∈ pre, IsSpace r = true) (hpost : ∀ r ∈ post, IsSpace r = true) :
    TrimSpace (utf8 pre ++ (s ++ utf8 post)) = s := by
  have hT : s ++ utf8 post ≠ [] := by simp [hs]
  have hd : DecodeRuneInString (s ++ utf8 post) = DecodeRuneInString s :=
    DecodeRune_append s (utf8 post) hs (utf8_head_start post hpost)
  unfold TrimSpace
  rcases trimSpaceStart_core (s ++ utf8 post) hT (by rw [hd]; exact hf) pre hpre 0 with
    h1 | ⟨k, ts, hts, h1, h2⟩
  · obtain ⟨p1, p2, flag, hp, ht, hfl⟩ := trimSpaceStop_core s hs hl post hpost
      (utf8 pre ++ (s ++ utf8 post)).length
    have hp1 : ∀ r ∈ p1, IsSpace r = true := fun r hr => hpost r (by rw [hp]; simp [hr])
    have etake : (utf8 pre ++ (s ++ utf8 post)).take
        ((utf8 pre ++ (s ++ utf8 post)).length - (utf8 p2).length)
          = utf8 pre ++ (s ++ utf8 p1) := by
      have e : utf8 pre ++ (s ++ utf8 post) = (utf8 pre ++ (s ++ utf8 p1)) ++ utf8 p2 := by
        rw [hp, utf8_append]; simp
      rw [e, List.length_append, Nat.add_sub_cancel, List.take_left]
    simp only [h1, zero_add, List.drop_left, ht, etake]
    cases flag with
    | true =>
      simp only [if_true, Bool.false_eq_true, if_false]
      exact TrimRightFunc_core s p1 hs hl hp1
    | false =>
      have := hfl rfl
      subst this
      simp [utf8]
  · simp only [h1, zero_add, h2, if_true]
    exact TrimFunc_core s ts post hs hf hl hts hpost

theorem ReadString_no_delim (input : GoString) (inputErr : Option GoString) (delim : Byte)
    (h : delim ∉ input) :
    ReadString input inputErr delim = (input, some (inputErr.getD (str "EOF"))) := by
  simp [ReadString, Cut_not_mem input delim h]

theorem ReadString_line (line rest : GoString) (inputErr : Option GoString) (delim : Byte)
    (h : delim ∉ line) :
    ReadString (line ++ delim :: rest) inputErr delim = (line ++ [delim], none) := by
  simp [ReadString, Cut_append_sep line rest delim h]

/-- The result of `readQuery` on input whose first line is white space only. -/
theorem readQuery_blank (rt : Runtime) (rs : List Nat) (rest : GoString)
    (hs : ∀ r ∈ rs, IsSpace r = true ∧ r ≠ 10) (hin : rt.stdin = utf8 rs ++ rest)
    (hrest : rest = [] ∨ rest.head? = some 10) :
    readQuery rt
      = .error (if rest = [] then str "failed to read input: " ++ rt.stdinErr.getD (str "EOF")
          else str "search query cannot be empty") := by
  have hn := utf8_no_newline rs hs
  rcases hrest with h | h
  · subst h
    simp only [List.append_nil] at hin
    simp only [readQuery, hin, ReadString_no_delim _ _ _ hn, if_true]
  · cases rest with
    | nil => simp at h
    | cons b rest2 =>
      simp only [List.head?_cons, Option.some.injEq] at h
      subst h
      have ht : TrimSpace (utf8 rs ++ [10]) = [] := by
        have e : utf8 rs ++ [10] = utf8 (rs ++ [10]) := by
          rw [utf8_append]
          rfl
        rw [e]
        apply TrimSpace_spaces
        intro r hr
        rcases List.mem_append.1 hr with h1 | h1
        · exact (hs r h1).1
        · simp only [List.mem_singleton] at h1
          subst h1
          rfl
      simp [readQuery, hin, ReadString_line _ _ _ _ hn, ht]

/-- C4: when the command line is accepted and standard input is empty, or its first line
(the bytes before the first new line, or all of them when there is none) is white space
only, `readQuery` returns an error (`failed to read input: ...` when no new line ends the
line, `search query cannot be empty` otherwise) and `run` returns that error after reading
standard input, without building a client and without issuing a request. The empty input is
the case of no white space and nothing after it. -/
theorem C4_blank_input (rt : Runtime) (cfg : config) (rs : List Nat) (rest : GoString)
    (hf : parseFlags rt = .returned cfg none)
    (hs : ∀ r ∈ rs, IsSpace r = true ∧ r ≠ 10) (hin : rt.stdin = utf8 rs ++ rest)
    (hrest : rest = [] ∨ rest.head? = some 10) :
    ∃ err, readQuery rt = .error err
      ∧ err = (if rest = [] then str "failed to read input: " ++ rt.stdinErr.getD (str "EOF")
          else str "search query cannot be empty")
      ∧ run rt = .returned (some err)
          { stdinRead := true, clients := [], requests := [], stdout := [] } := by
  have h := readQuery_blank rt rs rest hs hin hrest
  exact ⟨_, h, rfl, by simp only [run, hf, h]⟩

theorem C4_blank_input_witness :
    ∃ err, readQuery (exampleRuntime [] (utf8 [32, 0x2003, 9] ++ str "\ncats\n") 200 (str "\x7b\x7d"))
        = .error err
      ∧ err = (if str "\ncats\n" = [] then
            str "failed to read input: "
              ++ (exampleRuntime [] (utf8 [32, 0x2003, 9] ++ str "\ncats\n") 200
                    (str "\x7b\x7d")).stdinErr.getD (str "EOF")
          else str "search query cannot be empty")
      ∧ run (exampleRuntime [] (utf8 [32, 0x2003, 9] ++ str "\ncats\n") 200 (str "\x7b\x7d"))
          = .returned (some err)
              { stdinRead := true, clients := [], requests := [], stdout := [] } :=
  C4_blank_input (exampleRuntime [] (utf8 [32, 0x2003, 9] ++ str "\ncats\n") 200 (str "\x7b\x7d"))
    { instanceURL := defaultInstanceURL, format := str "json", timeout := defaultTimeout }
    [32, 0x2003, 9] (str "\ncats\n") (by decide) (by decide) rfl (by decide)

/-- C9, as amended: when the first line of standard input is ended by a new line and
consists of white space `pre`, then a non-empty string `s` whose first and last runes are
not white space, then white space `post` (so that `s` is the line with its surrounding
white space trimmed), `readQuery` succeeds and returns exactly `s`, whatever follows the
new line; when standard input holds no new line at all, `readQuery` returns the error
`failed to read input: ` followed by the error of the read (`EOF` at the end of input),
whatever the line holds. -/
theorem C9_read_query (rt : Runtime) :
    (∀ (pre post : List Nat) (s rest : GoString),
        (∀ r ∈ pre, IsSpace r = true) → (∀ r ∈ post, IsSpace r = true) → s ≠ [] →
        IsSpace (DecodeRuneInString s).1 = false →
        IsSpace (DecodeLastRuneInString s).1 = false →
        (10 : Byte) ∉ utf8 pre ++ (s ++ utf8 post) →
        rt.stdin = (utf8 pre ++ (s ++ utf8 post)) ++ 10 :: rest →
        readQuery rt = .ok s)
      ∧ ((10 : Byte) ∉ rt.stdin →
          readQuery rt
            = .error (str "failed to read input: " ++ rt.stdinErr.getD (str "EOF"))) := by
  constructor
  · intro pre post s rest hpre hpost hs hf hl hn hin
    have e10 : EncodeRune 10 = [10] := by rfl
    have e : (utf8 pre ++ (s ++ utf8 post)) ++ [10] = utf8 pre ++ (s ++ utf8 (post ++ [10])) := by
      rw [utf8_append, utf8_singleton, e10]
      simp
    have hpost2 : ∀ r ∈ post ++ [10], IsSpace r = true := by
      intro r hr
      rcases List.mem_append.1 hr with h | h
      · exact hpost r h
      · rw [List.mem_singleton.1 h]; rfl
    have ht := TrimSpace_core s pre (post ++ [10]) hs hf hl hpre hpost2
    simp only [readQuery, hin, ReadString_line _ _ _ _ hn, e, ht, if_neg hs]
  · intro h
    simp only [readQuery, ReadString_no_delim _ _ _ h]

theorem C9_read_query_witness :
    readQuery (exampleRuntime []
        ((utf8 [0x2003, 32] ++ (str "cats and dogs" ++ utf8 [9, 0xA0])) ++ 10 :: str "second line")
        200 (str "\x7b\x7d"))
      = .ok (str "cats and dogs")
    ∧ readQuery (exampleRuntime [] (str "  dogs ") 200 (str "\x7b\x7d"))
      = .error (str "failed to read input: EOF") :=
  ⟨(C9_read_query (exampleRuntime []
        ((utf8 [0x2003, 32] ++ (str "cats and dogs" ++ utf8 [9, 0xA0])) ++ 10 :: str "second line")
        200 (str "\x7b\x7d"))).1
      [0x2003, 32] [9, 0xA0] (str "cats and dogs") (str "second line")
      (by decide) (by decide) (by decide) (by decide) (by decide) (by decide) rfl,
    (C9_read_query (exampleRuntime [] (str "  dogs ") 200 (str "\x7b\x7d"))).2 (by decide)⟩

/-- C9 as stated fails: for the input `cats` with no new line after it the first line
trims to the non-empty string `cats`, yet `readQuery` returns an error. -/
theorem C9_counterexample :
    TrimSpace (str "cats") = str "cats"
      ∧ readQuery (exampleRuntime [] (str "cats") 200 (str "\x7b\x7d"))
          = .error (str "failed to read input: EOF") := by
  decide

/-! ## Facts about encoding/json -/

theorem byte_eq_ofNat (b : Byte) (n : Nat) (h : n = b.val) : (Fin.ofNat n : Byte) = b := by
  apply Fin.ext
  have := b.isLt
  simp only [Fin.ofNat, h]
  omega

/-- Encoding the rune of a valid encoding gives back its bytes; the rune and its width
depend on these bytes only; beyond ASCII all of them are at least `0x80`. -/
theorem EncodeRune_DecodeRune (s : GoString) (hne : s ≠ [])
    (hv : ¬ ((DecodeRuneInString s).1 = RuneError ∧ (DecodeRuneInString s).2 = 1)) :
    EncodeRune (DecodeRuneInString s).1 = s.take (DecodeRuneInString s).2
      ∧ 1 ≤ (DecodeRuneInString s).2 ∧ (DecodeRuneInString s).2 ≤ s.length
      ∧ (∀ X, DecodeRuneInString (s.take (DecodeRuneInString s).2 ++ X) = DecodeRuneInString s)
      ∧ (0x80 ≤ (s.headD 0).val → ∀ b ∈ s.take (DecodeRuneInString s).2, 0x80 ≤ b.val) := by
  rcases DecodeRune_valid_cases s hne hv with ⟨b, t, rfl, h0⟩ | ⟨b0, b1, t, rfl, h0, h1⟩
    | ⟨b0, b1, b2, t, rfl, h0, h1, h2⟩ | ⟨b0, b1, b2, b3, t, rfl, h0, h1, h2, h3⟩
  · rw [DecodeRune_one b t h0]
    refine ⟨?_, by simp, by simp, fun X => by simpa using DecodeRune_one b X h0, ?_⟩
    · simp only [EncodeRune, h0, if_true, List.take_succ_cons, List.take_zero]
      rw [byte_eq_ofNat b _ rfl]
    · intro h; simp only [List.headD_cons] at h; omega
  · rw [DecodeRune_two b0 b1 t h0 h1]
    refine ⟨?_, by simp, by simp, fun X => by simpa using DecodeRune_two b0 b1 X h0 h1, ?_⟩
    · have e1 : ¬ (b0.val % 32 * 64 + b1.val % 64 < 0x80) := by omega
      have e2 : b0.val % 32 * 64 + b1.val % 64 ≤ 0x7FF := by omega
      simp only [EncodeRune, e1, e2, if_true, if_false, List.take_succ_cons, List.take_zero]
      rw [byte_eq_ofNat b0 _ (by omega), byte_eq_ofNat b1 _ (by omega)]
    · intro _ b hb
      simp only [List.take_succ_cons, List.take_zero, List.mem_cons, List.mem_nil_iff, or_false] at hb
      rcases hb with rfl | rfl <;> omega
  · rw [DecodeRune_three b0 b1 b2 t h0 h1 h2]
    refine ⟨?_, by simp, by simp,
      fun X => by simpa using DecodeRune_three b0 b1 b2 X h0 h1 h2, ?_⟩
    · have e1 : ¬ (b0.val % 16 * 4096 + b1.val % 64 * 64 + b2.val % 64 < 0x80) := by
        split_ifs at h1 <;> omega
      have e2 : ¬ (b0.val % 16 * 4096 + b1.val % 64 * 64 + b2.val % 64 ≤ 0x7FF) := by
        split_ifs at h1 <;> omega
      have e3 : ¬ (0x10FFFF < b0.val % 16 * 4096 + b1.val % 64 * 64 + b2.val % 64
          ∨ (0xD800 ≤ b0.val % 16 * 4096 + b1.val % 64 * 64 + b2.val % 64
            ∧ b0.val % 16 * 4096 + b1.val % 64 * 64 + b2.val % 64 ≤ 0xDFFF)) := by
        split_ifs at h1 <;> omega
      have e4 : b0.val % 16 * 4096 + b1.val % 64 * 64 + b2.val % 64 ≤ 0xFFFF := by omega
      simp only [EncodeRune, e1, e2, e3, e4, if_true, if_false, List.take_succ_cons,
        List.take_zero]
      rw [byte_eq_ofNat b0 _ (by split_ifs at h1 <;> omega),
        byte_eq_ofNat b1 _ (by split_ifs at h1 <;> omega),
        byte_eq_ofNat b2 _ (by omega)]
    · intro _ b hb
      simp only [List.take_succ_cons, List.take_zero, List.mem_cons, List.mem_nil_iff, or_false] at hb
      rcases hb with rfl | rfl | rfl
      · omega
      · split_ifs at h1 <;> omega
      · omega
  · rw [DecodeRune_four b0 b1 b2 b3 t h0 h1 h2 h3]
    refine ⟨?_, by simp, by simp,
      fun X => by simpa using DecodeRune_four b0 b1 b2 b3 X h0 h1 h2 h3, ?_⟩
    · have e1 : ¬ (b0.val % 8 * 262144 + b1.val % 64 * 4096 + b2.val % 64 * 64 + b3.val % 64
          < 0x80) := by split_ifs at h1 <;> omega
      have e2 : ¬ (b0.val % 8 * 262144 + b1.val % 64 * 4096 + b2.val % 64 * 64 + b3.val % 64
          ≤ 0x7FF) := by split_ifs at h1 <;> omega
      have e3 : ¬ (0x10FFFF < b0.val % 8 * 262144 + b1.val % 64 * 4096 + b2.val % 64 * 64
            + b3.val % 64
          ∨ (0xD800 ≤ b0.val % 8 * 262144 + b1.val % 64 * 4096 + b2.val % 64 * 64 + b3.val % 64
            ∧ b0.val % 8 * 262144 + b1.val % 64 * 4096 + b2.val % 64 * 64 + b3.val % 64
              ≤ 0xDFFF)) := by
        split_ifs at h1 <;> omega
      have e4 : ¬ (b0.val % 8 * 262144 + b1.val % 64 * 4096 + b2.val % 64 * 64 + b3.val % 64
          ≤ 0xFFFF) := by split_ifs at h1 <;> omega
      simp only [EncodeRune, e1, e2, e3, e4, if_true, if_false, List.take_succ_cons,
        List.take_zero]
      rw [byte_eq_ofNat b0 _ (by split_ifs at h1 <;> omega),
        byte_eq_ofNat b1 _ (by split_ifs at h1 <;> omega),
        byte_eq_ofNat b2 _ (by omega), byte_eq_ofNat b3 _ (by omega)]
    · intro _ b hb
      simp only [List.take_succ_cons, List.take_zero, List.mem_cons, List.mem_nil_iff, or_false] at hb
      rcases hb with rfl | rfl | rfl | rfl
      · omega
      · split_ifs at h1 <;> omega
      · omega
      · omega

theorem escapeASCIIShape_all : ∀ b : Byte, b.val < 0x80 → escapeASCIIShape b = true := by
  decide!

/-- Prefixing the outcome of a scan with bytes already accepted. -/
theorem scanString_plain (c : Byte) (X : GoString) (h1 : c ≠ 34) (h2 : c ≠ 92)
    (h3 : 0x20 ≤ c.val) :
    scanString 0 (c :: X)
      = match scanString 0 X with
        | .ok (raw, r) => .ok (c :: raw, r)
        | .error e => .error e := by
  have h4 : ¬ c.val < 0x20 := by omega
  conv => lhs; unfold scanString
  simp only [h1, h2, h4, if_true, if_false]

theorem scanString_escape (x : Byte) (X : GoString)
    (h : x = 98 ∨ x = 102 ∨ x = 110 ∨ x = 114 ∨ x = 116 ∨ x = 92 ∨ x = 47 ∨ x = 34) :
    scanString 0 (92 :: x :: X)
      = match scanString 0 X with
        | .ok (raw, r) => .ok (92 :: x :: raw, r)
        | .error e => .error e := by
  conv => lhs; unfold scanString
  have e1 : ¬ ((92 : Byte) = 34) := by decide
  simp only [e1, if_true, if_false]
  conv => lhs; unfold scanString
  simp only [h, if_true, OfNat.one_ne_ofNat, if_false]
  cases scanString 0 X with
  | error e => rfl
  | ok p => rfl

theorem scanString_u (h1 h2 h3 h4 : Byte) (X : GoString) (a1 : ishex h1 = true)
    (a2 : ishex h2 = true) (a3 : ishex h3 = true) (a4 : ishex h4 = true) :
    scanString 0 (92 :: 117 :: h1 :: h2 :: h3 :: h4 :: X)
      = match scanString 0 X with
        | .ok (raw, r) => .ok (92 :: 117 :: h1 :: h2 :: h3 :: h4 :: raw, r)
        | .error e => .error e := by
  have e1 : ¬ ((92 : Byte) = 34) := by decide
  have e2 : ¬ ((117 : Byte) = 98 ∨ (117 : Byte) = 102 ∨ (117 : Byte) = 110 ∨ (117 : Byte) = 114
      ∨ (117 : Byte) = 116 ∨ (117 : Byte) = 92 ∨ (117 : Byte) = 47 ∨ (117 : Byte) = 34) := by
    decide
  simp only [scanString, e1, e2, a1, a2, a3, a4, if_true, if_false, OfNat.one_ne_ofNat,
    OfNat.ofNat_ne_zero, OfNat.ofNat_ne_one, Nat.reduceEqDiff, Nat.reduceAdd]
  cases scanString 0 X with
  | error e => rfl
  | ok p => rfl

theorem unquoteAux_plain (k : Nat) (c : Byte) (X : GoString) (h1 : c ≠ 92) (h2 : c.val < 0x80) :
    unquoteAux (k + 1) (c :: X) = c :: unquoteAux k X := by
  simp only [unquoteAux, h1, h2, if_true, if_false]

theorem unquoteAux_escape (k : Nat) (x : Byte) (X : GoString) (h : x ≠ 117) :
    unquoteAux (k + 1) (92 :: x :: X)
      = (if x = 98 then 8 else if x = 102 then 12 else if x = 110 then 10
          else if x = 114 then 13 else if x = 116 then 9 else x) :: unquoteAux k X := by
  simp only [unquoteAux, h, if_true, if_false]

theorem unquoteAux_u (k : Nat) (h1 h2 h3 h4 : Byte) (X : GoString) (a1 : ishex h1 = true)
    (a2 : ishex h2 = true) (a3 : ishex h3 = true) (a4 : ishex h4 = true)
    (hs : IsSurrogate (hexVal h1 * 4096 + hexVal h2 * 256 + hexVal h3 * 16 + hexVal h4) = false) :
    unquoteAux (k + 1) (92 :: 117 :: h1 :: h2 :: h3 :: h4 :: X)
      = EncodeRune (hexVal h1 * 4096 + hexVal h2 * 256 + hexVal h3 * 16 + hexVal h4)
          ++ unquoteAux k X := by
  simp [unquoteAux, getu4, a1, a2, a3, a4, hs]

theorem unquoteAux_rune (k : Nat) (s X : GoString) (hne : s ≠ [])
    (hv : ¬ ((DecodeRuneInString s).1 = RuneError ∧ (DecodeRuneInString s).2 = 1))
    (hb : 0x80 ≤ (s.headD 0).val) :
    unquoteAux (k + 1) (s.take (DecodeRuneInString s).2 ++ X)
      = s.take (DecodeRuneInString s).2 ++ unquoteAux k X := by
  obtain ⟨he, h1, h2, hd, hge⟩ := EncodeRune_DecodeRune s hne hv
  cases hc : s.take (DecodeRuneInString s).2 with
  | nil =>
    have : (s.take (DecodeRuneInString s).2).length = 0 := by rw [hc]; rfl
    rw [List.length_take] at this
    omega
  | cons c t =>
    have hc80 : 0x80 ≤ c.val := hge hb c (by rw [hc]; exact List.mem_cons_self _ _)
    have n1 : c ≠ 92 := by
      intro e; subst e; revert hc80; decide
    have n2 : ¬ c.val < 0x80 := by omega
    have hd2 := hd X
    rw [hc] at hd2
    simp only [List.cons_append] at hd2 ⊢
    simp only [unquoteAux, n1, n2, if_false]
    rw [hd2, he, hc]
    have : List.drop (DecodeRuneInString s).2 (c :: (t ++ X)) = X := by
      have hl : (c :: t).length = (DecodeRuneInString s).2 := by
        rw [← hc, List.length_take]; omega
      rw [← hl, ← List.cons_append]
      simp
    rw [this]
    rfl

theorem IsSurrogate_small (n : Nat) (h : n < 0xD800) : IsSurrogate n = false := by
  simp only [IsSurrogate, decide_eq_false_iff_not]
  show ¬ ((0xD800 : Nat) ≤ n ∧ n < (0xE000 : Nat))
  omega

/-- What `escapeASCII` writes is accepted by the scanner and unquoted to the byte. -/
theorem escapeASCII_chunk (b : Byte) (hb : b.val < 0x80) :
    (∀ X, scanString 0 (escapeASCII b ++ X)
        = match scanString 0 X with
          | .ok (raw, r) => .ok (escapeASCII b ++ raw, r)
          | .error e => .error e)
      ∧ (∀ k X, unquoteAux (k + 1) (escapeASCII b ++ X) = b :: unquoteAux k X) := by
  have h := escapeASCIIShape_all b hb
  unfold escapeASCIIShape at h
  split at h
  · rename_i c hc
    simp only [Bool.and_eq_true, beq_iff_eq, bne_iff_ne, ne_eq, decide_eq_true_eq] at h
    obtain ⟨⟨⟨h1, h2⟩, h3⟩, h4⟩ := h
    subst h1
    rw [hc]
    exact ⟨fun X => scanString_plain c X h2 h3 h4, fun k X => unquoteAux_plain k c X h3 hb⟩
  · rename_i p x hc
    simp only [Bool.and_eq_true, Bool.or_eq_true, beq_iff_eq, bne_iff_ne, ne_eq] at h
    obtain ⟨⟨⟨h1, h2⟩, h3⟩, h4⟩ := h
    subst h1
    rw [hc]
    refine ⟨fun X => scanString_escape x X (by tauto), fun k X => ?_⟩
    rw [List.cons_append, List.cons_append, List.nil_append, unquoteAux_escape k x X h2, h4]
  · rename_i p u z1 z2 h1 h2 hc
    simp only [Bool.and_eq_true, beq_iff_eq] at h
    obtain ⟨⟨⟨⟨⟨⟨e1, e2⟩, e3⟩, e4⟩, a1⟩, a2⟩, hval⟩ := h
    subst e1 e2 e3 e4
    rw [hc]
    have a0 : ishex 48 = true := by decide
    refine ⟨fun X => scanString_u 48 48 h1 h2 X a0 a0 a1 a2, fun k X => ?_⟩
    have hv0 : hexVal 48 = 0 := by decide
    have hrr : hexVal 48 * 4096 + hexVal 48 * 256 + hexVal h1 * 16 + hexVal h2 = b.val := by
      simp only [hv0, Nat.zero_mul, Nat.zero_add]
      exact hval
    have hs : IsSurrogate (hexVal 48 * 4096 + hexVal 48 * 256 + hexVal h1 * 16 + hexVal h2)
        = false := IsSurrogate_small _ (by rw [hrr]; omega)
    have := unquoteAux_u k 48 48 h1 h2 X a0 a0 a1 a2 hs
    simp only [List.cons_append, List.nil_append] at this ⊢
    rw [this, hrr]
    simp only [EncodeRune, hb, if_true, List.cons_append, List.nil_append]
    rw [byte_eq_ofNat b _ rfl]
  · simp at h

end Seax
